import Mathlib

/-!
Verification of the dialogue state tracker of FlightGear_NLP
(`src/dialogue_state_tracker.py`), as a shallow embedding.

Python dicts are modelled as association lists (insertion ordered, unique
keys, in-place update on existing keys).  A parameter map (`StrMap`) stores
`Option Value` values, mirroring that a Python dict may hold `None`; a key
that is absent and a key that maps to `None` are distinguished, exactly as
in Python (`k in d` vs `d.get(k) is None`).  `Value` covers the values the
tracker moves around: parsed numbers, strings, and the small entity-record
dicts the tracker itself builds for `entity_references`.  The wall-clock
timestamp stored into `conversation_history` is omitted: no operation of
the tracker ever reads it.
-/

namespace FGNLP

/-- A runtime value: a Python int, a string, or one of the tracker's own
entity-record dicts (`{'type': ..., ('name': ...,) 'mentioned_in_turn': ...}`).
Two entity records are equal iff their type, optional name and turn agree,
matching Python dict equality. -/
inductive Value where
  | int : Int → Value
  | str : String → Value
  | entity : String → Option String → Nat → Value
deriving DecidableEq, Repr

/-- Python truthiness of a value (`if parameters.get(...)`): `0`, `""` are
falsy, a (nonempty) dict is truthy. -/
def Value.truthy : Value → Bool
  | .int n => n != 0
  | .str s => s != ""
  | .entity _ _ _ => true

/-- A Python dict with string keys, values of type `α`. -/
abbrev AList (α : Type) := List (String × α)

/-- Dict lookup: `d[k]` / `k in d`. Returns the value of the first (unique,
for genuine dicts) entry with key `k`. -/
def lookupA {α : Type} : AList α → String → Option α
  | [], _ => none
  | (k', v) :: t, k => if k' = k then some v else lookupA t k

/-- Dict store `d[k] = v`: updates the entry in place if the key exists,
else appends (Python dicts are insertion ordered). -/
def insertA {α : Type} : AList α → String → α → AList α
  | [], k, v => [(k, v)]
  | (k', v') :: t, k, v => if k' = k then (k, v) :: t else (k', v') :: insertA t k v

/-- A parameters / slots dict: values may be `None`. -/
abbrev StrMap := AList (Option Value)

/-- `d.get(k)`: `None` both when the key is absent and when it maps to `None`. -/
def mget (m : StrMap) (k : String) : Option Value :=
  (lookupA m k).join

/-- `any(v is not None for v in d.values())`. -/
def anyNonNull (m : StrMap) : Bool :=
  m.any (fun kv => kv.2.isSome)

/-- The keys of a dict are distinct (always true of a genuine Python dict). -/
def keysNodup {α : Type} (m : AList α) : Prop :=
  (m.map Prod.fst).Nodup

instance instDecKeysNodup {α : Type} (m : AList α) : Decidable (keysNodup m) := by
  unfold keysNodup
  exact List.nodupDecidable _

/-- The entity-reference dict: values are always actual values, never `None`
(the tracker only ever stores truthy parameter values or entity records). -/
abbrev ERefs := AList Value

/-- One stored conversation turn (timestamp omitted, see the header). -/
structure Turn where
  turn : Nat
  user_input : String
  intent : Option String
  parameters : StrMap
deriving DecidableEq, Repr

/-- The mutable state of `DialogueStateTracker`. -/
structure DialogueState where
  current_intent : Option String
  slots : StrMap
  conversation_history : List Turn
  pending_slots : List String
  entity_references : ERefs
  last_action : Option String
  turn_count : Nat
deriving DecidableEq, Repr

/-- `__init__`: the empty dialogue state. -/
def initState : DialogueState :=
  { current_intent := none, slots := [], conversation_history := [],
    pending_slots := [], entity_references := [], last_action := none,
    turn_count := 0 }

/-- The parser output dict.  `intent` / `parameters` may be missing
(`none`); `origInput` models the optional `_original_input` key read by
`merge_parsed_with_state`. -/
structure ParsedCommand where
  intent : Option String
  parameters : Option StrMap
  origInput : Option String
deriving DecidableEq, Repr

/-- Python string truthiness of an `Optional[str]` (`if self.current_intent:`). -/
def optStrTruthy : Option String → Bool
  | none => false
  | some s => s != ""

/-! ### Strings: `.lower()`, substring containment, `re` scans -/

/-- `str.lower()` (ASCII, which is all the tracker's keywords need;
`Char.toLower` only lowers A–Z, like `str.lower` on ASCII input). -/
def lowerStr (s : String) : String :=
  ⟨s.data.map Char.toLower⟩

/-- Does `cs` start with `pre`? -/
def isPre : List Char → List Char → Bool
  | [], _ => true
  | _ :: _, [] => false
  | a :: as, b :: bs => a == b && isPre as bs

/-- `needle in hay` on char lists. -/
def hasSub (needle : List Char) : List Char → Bool
  | [] => needle.isEmpty
  | c :: t => isPre needle (c :: t) || hasSub needle t

/-- Python `needle in hay` for strings. -/
def strHas (hay needle : String) : Bool :=
  hasSub needle.data hay.data

/-- `hay.startswith(pre)`. -/
def strStarts (hay pre : String) : Bool :=
  isPre pre.data hay.data

/-- `hay.endswith(suf)`. -/
def strEnds (hay suf : String) : Bool :=
  isPre suf.data.reverse hay.data.reverse

/-- `re.findall(r'\d+', s)` followed by `int(numbers[0])`: value of the
first maximal digit run, if any. -/
def digitsVal (cs : List Char) : Nat :=
  cs.foldl (fun a c => a * 10 + (c.toNat - 48)) 0

/-- Scan for the first digit run. -/
def firstNumAux : List Char → Option Nat
  | [] => none
  | c :: rest =>
    if c.isDigit then some (digitsVal (c :: rest.takeWhile Char.isDigit))
    else firstNumAux rest

/-- The first integer literal in `s`, if any. -/
def firstNumber (s : String) : Option Nat :=
  firstNumAux s.data

/-- Python `\w` (ASCII part). -/
def isWordChar (c : Char) : Bool :=
  c.isAlphanum || c == '_'

/-- Python `\s` (ASCII part). -/
def isWsChar (c : Char) : Bool :=
  c == ' ' || c == '\t' || c == '\n' || c == '\r' || c == '\x0b' || c == '\x0c'

/-- Case-insensitive literal match of `pat` at the head of `cs`; returns the
rest on success (for the `re.IGNORECASE` scans). `pat` is lowercase. -/
def lcMatch : List Char → List Char → Option (List Char)
  | [], cs => some cs
  | _ :: _, [] => none
  | p :: ps, c :: cs => if c.toLower == p then lcMatch ps cs else none

/-- One attempt of `re.search(r'(?:waypoint|point|location)\s+(\w+)', ..)`
at the current position: keyword (the three alternatives start with
distinct letters, so at most one can match), then one-plus whitespace,
then the captured maximal `\w+` run. -/
def wpTryAt (cs : List Char) : Option (List Char) :=
  match (lcMatch "waypoint".data cs).orElse
          (fun _ => (lcMatch "point".data cs).orElse
            (fun _ => lcMatch "location".data cs)) with
  | none => none
  | some rest =>
    if (rest.takeWhile isWsChar).isEmpty then none
    else
      let w := (rest.dropWhile isWsChar).takeWhile isWordChar
      if w.isEmpty then none else some w

/-- Leftmost-match scan for the waypoint pattern. -/
def wpScan : List Char → Option (List Char)
  | [] => none
  | c :: t =>
    match wpTryAt (c :: t) with
    | some w => some w
    | none => wpScan t

/-- `re.search(r'(?:waypoint|point|location)\s+(\w+)', s, re.IGNORECASE)`,
returning `group(1)` (in original case, as Python does). -/
def waypointSearch (s : String) : Option String :=
  (wpScan s.data).map (fun w => ⟨w⟩)

/-- One attempt of the ordinal pattern `(first|second|third|last)\s+one`
at the current position (again the alternatives start with distinct
letters).  Returns the ordinal, already lowercased as in the source
(`ordinal_match.group(1).lower()`). -/
def ordTryAt (cs : List Char) : Option String :=
  match ((lcMatch "first".data cs).map (fun r => ("first", r))).orElse
          (fun _ => ((lcMatch "second".data cs).map (fun r => ("second", r))).orElse
            (fun _ => ((lcMatch "third".data cs).map (fun r => ("third", r))).orElse
              (fun _ => (lcMatch "last".data cs).map (fun r => ("last", r))))) with
  | none => none
  | some (w, rest) =>
    if (rest.takeWhile isWsChar).isEmpty then none
    else
      match lcMatch "one".data (rest.dropWhile isWsChar) with
      | some _ => some w
      | none => none

/-- Leftmost scan for the ordinal core.  The optional `(?:the\s+)?` prefix
of the source regex never changes the captured group: every core occurrence
is itself a full match, a match's core lies at most `the` + whitespace past
its start, and no core can begin inside that prefix (cores start with
`f`/`s`/`t`/`l`, while the prefix region offers only `h`, `e` and
whitespace after its first char) — so the leftmost match's group is the
leftmost core occurrence. -/
def ordScan : List Char → Option String
  | [] => none
  | c :: t =>
    match ordTryAt (c :: t) with
    | some w => some w
    | none => ordScan t

/-- `re.search` for the ordinal pattern, returning `group(1).lower()`. -/
def ordinalSearch (s : String) : Option String :=
  ordScan s.data

/-! ### The tracker's methods -/

/-- `is_correction`: any correction keyword occurs in the lowercased input. -/
def correctionKeywords : List String :=
  ["actually", "correction", "change", "update", "make it",
   "instead", "rather", "no wait", "scratch that", "never mind",
   "cancel", "abort", "wrong", "not that"]

/-- `is_correction(user_input)`. -/
def is_correction (user_input : String) : Bool :=
  correctionKeywords.any (fun kw => strHas (lowerStr user_input) kw)

/-- Merge parameters into slots, skipping `None` values
(`for key, value in ps.items(): if value is not None: slots[key] = value`). -/
def mergeNonNull (slots : StrMap) (ps : StrMap) : StrMap :=
  ps.foldl (fun s kv =>
    match kv.2 with
    | some v => insertA s kv.1 (some v)
    | none => s) slots

/-- `_update_intent_and_slots`. -/
def update_intent_and_slots (st : DialogueState) (intent : String) (parameters : StrMap) :
    DialogueState :=
  let st := if intent == "" then st else { st with current_intent := some intent }
  { st with slots := mergeNonNull st.slots parameters }

/-- Altitude keyword test of `_extract_parameter_updates` (raw substring
containment on the lowercased input). -/
def altKeyword (lower : String) : Bool :=
  strHas lower "altitude" || strHas lower "height" || strHas lower "feet" || strHas lower "ft"

/-- Speed keyword test. -/
def speedKeyword (lower : String) : Bool :=
  strHas lower "speed" || strHas lower "knots" || strHas lower "kts"

/-- Heading keyword test. -/
def headingKeyword (lower : String) : Bool :=
  strHas lower "heading" || strHas lower "direction" || strHas lower "turn" || strHas lower "degrees"

/-- `_extract_parameter_updates`: route the first integer of the raw text
into one slot by first keyword match, falling back to the current intent. -/
def extract_parameter_updates (st : DialogueState) (user_input : String) : DialogueState :=
  let lower := lowerStr user_input
  match firstNumber user_input with
  | none => st
  | some n =>
    let v : Option Value := some (.int (Int.ofNat n))
    if altKeyword lower then
      { st with slots := insertA st.slots "altitude_ft" v }
    else if speedKeyword lower then
      { st with slots := insertA st.slots "speed_value" v }
    else if headingKeyword lower then
      { st with slots := insertA st.slots "heading_deg" v }
    else
      match st.current_intent with
      | some ci =>
        if ci == "change_altitude" then
          { st with slots := insertA st.slots "altitude_ft" v }
        else if ci == "change_speed" then
          { st with slots := insertA st.slots "speed_value" v }
        else if ci == "change_direction" then
          { st with slots := insertA st.slots "heading_deg" v }
        else st
      | none => st

/-- `_handle_correction`. -/
def handle_correction (st : DialogueState) (intent : String) (parameters : StrMap)
    (user_input : String) : DialogueState :=
  let st := extract_parameter_updates st user_input
  let st := if intent == "" then st else { st with current_intent := some intent }
  { st with slots := mergeNonNull st.slots parameters }

/-- The entity-reference updates of `_extract_entities` (the method only
writes `entity_references`). -/
def erUpdate (er : ERefs) (user_input : String) (parameters : StrMap) (turn_count : Nat) :
    ERefs :=
  let lower := lowerStr user_input
  let er := if strHas lower "aircraft" || strHas lower "plane" then
      insertA er "aircraft" (.entity "aircraft" none turn_count)
    else er
  let er := match waypointSearch user_input with
    | some nm => insertA er nm (.entity "waypoint" (some nm) turn_count)
    | none => er
  let er := match mget parameters "altitude_ft" with
    | some v => if v.truthy then insertA er "last_altitude" v else er
    | none => er
  let er := match mget parameters "speed_value" with
    | some v => if v.truthy then insertA er "last_speed" v else er
    | none => er
  match mget parameters "heading_deg" with
  | some v => if v.truthy then insertA er "last_heading" v else er
  | none => er

/-- `_extract_entities` (its `intent` argument is never used by the body). -/
def extract_entities (st : DialogueState) (user_input : String) (_intent : String)
    (parameters : StrMap) : DialogueState :=
  { st with entity_references := erUpdate st.entity_references user_input parameters st.turn_count }

/-- The `"it"` trigger of `_resolve_coreferences`. -/
def itTrigger (lower : String) : Bool :=
  strHas lower " it " || strStarts lower "it " || strEnds lower " it"

/-- The `"that"` trigger. -/
def thatTrigger (lower : String) : Bool :=
  strHas lower " that"

/-- One key of the `"it"` fill: `if key in slots and resolved.get(key) is
None: resolved[key] = slots[key]`. -/
def fillSlotKey (slots : StrMap) (k : String) (r : StrMap) : StrMap :=
  match lookupA slots k with
  | some ov => if (mget r k).isNone then insertA r k ov else r
  | none => r

/-- The `"it"` fill over `['altitude_ft', 'speed_value', 'heading_deg']`. -/
def fillFromSlots (slots : StrMap) (r : StrMap) : StrMap :=
  fillSlotKey slots "heading_deg" (fillSlotKey slots "speed_value" (fillSlotKey slots "altitude_ft" r))

/-- One entry of the `"first one"` fill from the first turn's parameters. -/
def fillHistEntry (r : StrMap) (kv : String × Option Value) : StrMap :=
  match kv.2 with
  | some v => if (mget r kv.1).isNone then insertA r kv.1 (some v) else r
  | none => r

/-- The `"first one"` fill: `for key, value in first_params.items(): ...`. -/
def fillFromHist (first_params : StrMap) (r : StrMap) : StrMap :=
  first_params.foldl fillHistEntry r

/-- One slot of the `"that"` fill from `entity_references`. -/
def fillRefKey (er : ERefs) (refName slotName : String) (r : StrMap) : StrMap :=
  match lookupA er refName with
  | some v => if (mget r slotName).isNone then insertA r slotName (some v) else r
  | none => r

/-- The `"that"` fill over the three `last_*` references. -/
def fillFromRefs (er : ERefs) (r : StrMap) : StrMap :=
  fillRefKey er "last_heading" "heading_deg"
    (fillRefKey er "last_speed" "speed_value"
      (fillRefKey er "last_altitude" "altitude_ft" r))

/-- `_resolve_coreferences`.  The `"there"` branch of the source only
contains a `pass` and is omitted; the `"second"/"third"/"last"` ordinals
match but drive no update, exactly as in the source. -/
def resolve_coreferences (st : DialogueState) (user_input : String) (parameters : StrMap) :
    StrMap :=
  let lower := lowerStr user_input
  let r := parameters
  let r := if itTrigger lower && (optStrTruthy st.current_intent && !anyNonNull parameters) then
      fillFromSlots st.slots r
    else r
  let r := match ordinalSearch user_input with
    | some o =>
      if o == "first" then
        match st.conversation_history with
        | [] => r
        | t0 :: _ => fillFromHist t0.parameters r
      else r
    | none => r
  if thatTrigger lower then fillFromRefs st.entity_references r else r

/-- The required-slot table of `_update_pending_slots`. -/
def requiredSlots : String → List String
  | "change_speed" => ["speed_value"]
  | "change_altitude" => ["altitude_ft"]
  | "change_direction" => ["heading_deg", "direction"]
  | _ => []

/-- `_update_pending_slots`. -/
def update_pending_slots (st : DialogueState) : DialogueState :=
  if optStrTruthy st.current_intent then
    let required := requiredSlots (st.current_intent.getD "")
    let pending := required.filter (fun slot => (mget st.slots slot).isNone)
    { st with pending_slots := pending }
  else
    { st with pending_slots := [] }

/-- The tail of `update_state` shared by both branches (lines 76–94 of the
source): entity extraction, coreference resolution, the resolution merge,
the final intent write, and the pending recomputation. -/
def finish_turn (st : DialogueState) (intent : String) (parameters : StrMap)
    (user_input : String) : DialogueState :=
  let st := extract_entities st user_input intent parameters
  let resolved := resolve_coreferences st user_input parameters
  let st := { st with slots := mergeNonNull st.slots resolved }
  let st := if intent == "" then st else { st with current_intent := some intent }
  update_pending_slots st

/-- The body of `update_state`, with the parser dict's fields already
extracted (`cIntent` is also what line 51 stores into the history;
the line-66 write into the caller's dict does not touch tracker state). -/
def update_state_core (st : DialogueState) (cIntent : Option String) (parameters : StrMap)
    (user_input : String) : DialogueState :=
  let tc := st.turn_count + 1
  let entry : Turn := { turn := tc, user_input := user_input, intent := cIntent,
                        parameters := parameters }
  let hist := st.conversation_history ++ [entry]
  let st := { st with turn_count := tc, conversation_history := hist }
  let intent0 := lowerStr (cIntent.getD "")
  if is_correction user_input then
    let intent1 :=
      if (intent0 == "" || intent0 == "status") && optStrTruthy st.current_intent then
        lowerStr (st.current_intent.getD "")
      else intent0
    let st := handle_correction st intent1 parameters user_input
    let intent2 :=
      if optStrTruthy st.current_intent then lowerStr (st.current_intent.getD "")
      else intent1
    finish_turn st intent2 parameters user_input
  else
    finish_turn (update_intent_and_slots st intent0 parameters) intent0 parameters user_input

/-- `update_state` (the returned `get_state()` dict is a projection of the
state; the claims all speak about the state's fields). -/
def update_state (st : DialogueState) (parsed_command : ParsedCommand) (user_input : String) :
    DialogueState :=
  update_state_core st parsed_command.intent (parsed_command.parameters.getD []) user_input

/-- `merge_parsed_with_state`: builds the merged command, reading but never
writing the tracker state; the returned pair makes the (absent) state
update explicit. -/
def merge_parsed_with_state (st : DialogueState) (parsed_command : ParsedCommand) :
    DialogueState × ParsedCommand :=
  let intent0 := lowerStr (parsed_command.intent.getD "")
  let params := parsed_command.parameters.getD []
  let orig := parsed_command.origInput.getD ""
  let isCorr := if orig == "" then false else is_correction orig
  let mIntent :=
    if isCorr && ((intent0 == "" || intent0 == "status") && optStrTruthy st.current_intent) then
      st.current_intent
    else parsed_command.intent
  let intent1 :=
    if isCorr && ((intent0 == "" || intent0 == "status") && optStrTruthy st.current_intent) then
      lowerStr (st.current_intent.getD "")
    else intent0
  let mIntent := if intent1 == "" && optStrTruthy st.current_intent then st.current_intent
    else mIntent
  let params := st.slots.foldl (fun ps kv =>
    if (mget ps kv.1).isNone && kv.2.isSome then insertA ps kv.1 kv.2 else ps) params
  (st, { intent := mIntent, parameters := some params, origInput := parsed_command.origInput })

/-! ### Association-list lemmas -/

/-! ### Proof-side helper definitions (masks, stages, fixtures) -/

/-- `oAlt a b = a` unless `a` is `None`, in which case `b`. -/
def oAlt (a b : Option Value) : Option Value :=
  match a with
  | some v => some v
  | none => b

/-- The three slot keys the `"it"` fill touches. -/
def isFillKey (k : String) : Prop :=
  k = "altitude_ft" ∨ k = "speed_value" ∨ k = "heading_deg"

instance (k : String) : Decidable (isFillKey k) := by
  unfold isFillKey
  infer_instance

/-- First non-`None` value stored under `k` (for a genuine dict, just
`d.get(k)`; total on arbitrary lists so the fold lemma needs no key
hypotheses). -/
def getFirstSome : StrMap → String → Option Value
  | [], _ => none
  | (k', ov) :: t, k =>
    if k' = k then
      match ov with
      | some v => some v
      | none => getFirstSome t k
    else getFirstSome t k

/-- What the `"it"` branch can contribute for key `k`. -/
def itMask (st : DialogueState) (user_input : String) (p : StrMap) (k : String) : Option Value :=
  if itTrigger (lowerStr user_input) && (optStrTruthy st.current_intent && !anyNonNull p) then
    if isFillKey k then (lookupA st.slots k).join else none
  else none

/-- What the `"first one"` branch can contribute for key `k`. -/
def ordMask (st : DialogueState) (user_input : String) (k : String) : Option Value :=
  match ordinalSearch user_input with
  | some o =>
    if o == "first" then
      match st.conversation_history with
      | [] => none
      | t0 :: _ => getFirstSome t0.parameters k
    else none
  | none => none

/-- What the `"that"` branch can contribute for key `k`. -/
def thatMask (st : DialogueState) (user_input : String) (k : String) : Option Value :=
  if thatTrigger (lowerStr user_input) then
    if k = "altitude_ft" then lookupA st.entity_references "last_altitude"
    else if k = "speed_value" then lookupA st.entity_references "last_speed"
    else if k = "heading_deg" then lookupA st.entity_references "last_heading"
    else none
  else none

/-- The first stage of `_resolve_coreferences` (the `"it"` branch). -/
def resStage1 (st : DialogueState) (t : String) (p : StrMap) : StrMap :=
  if itTrigger (lowerStr t) && (optStrTruthy st.current_intent && !anyNonNull p) then
    fillFromSlots st.slots p
  else p

/-- The second stage (the ordinal branch). -/
def resStage2 (st : DialogueState) (t : String) (r : StrMap) : StrMap :=
  match ordinalSearch t with
  | some o =>
    if o == "first" then
      match st.conversation_history with
      | [] => r
      | t0 :: _ => fillFromHist t0.parameters r
    else r
  | none => r

/-- No waypoint/point/location mention captures a name that collides with
the three `last_*` entity-reference keys. -/
def wpSafe (t : String) : Bool :=
  match waypointSearch t with
  | some nm => !(nm == "last_altitude" || nm == "last_speed" || nm == "last_heading")
  | none => true

/-- The update `_extract_entities` performs on one `last_*` reference:
overwrite with the parsed value when truthy, else keep the old one. -/
def lastRefStep (old : Option Value) (pv : Option Value) : Option Value :=
  match pv with
  | some v => if v.truthy then some v else old
  | none => old

/-- The history/turn-count prologue of `update_state` (lines 45–54). -/
def histStep (st : DialogueState) (cIntent : Option String) (p : StrMap) (t : String) :
    DialogueState :=
  let entry : Turn := { turn := st.turn_count + 1, user_input := t, intent := cIntent,
                        parameters := p }
  let hist := st.conversation_history ++ [entry]
  { st with turn_count := st.turn_count + 1, conversation_history := hist }

/-- The state after an initial "climb to 5000 feet" turn (used by the C1
counterexample). -/
def C1state : DialogueState :=
  update_state initState
    ⟨some "change_altitude", some [("altitude_ft", some (Value.int 5000))], none⟩
    "climb to 5000 feet"

/-- The state used by the C6 counterexample: altitude slot filled with
8000 but a stale `last_altitude = 3000` entity reference. -/
def C6state : DialogueState :=
  ⟨some "change_altitude", [("altitude_ft", some (Value.int 8000))], [], [],
   [("last_altitude", Value.int 3000)], none, 5⟩

theorem lookupA_insertA_self {α : Type} (m : AList α) (k : String) (v : α) :
    lookupA (insertA m k v) k = some v := by
  induction m with
  | nil => simp [insertA, lookupA]
  | cons kv t ih =>
    obtain ⟨k', v'⟩ := kv
    by_cases h : k' = k
    · simp [insertA, h, lookupA]
    · simp [insertA, h, lookupA, ih]

theorem lookupA_insertA_ne {α : Type} (m : AList α) {k k' : String} (v : α) (h : k' ≠ k) :
    lookupA (insertA m k v) k' = lookupA m k' := by
  have hne : ¬ k = k' := fun hh => h hh.symm
  induction m with
  | nil => simp [insertA, lookupA, hne]
  | cons kv t ih =>
    obtain ⟨k'', v''⟩ := kv
    by_cases h2 : k'' = k
    · subst h2
      simp [insertA, lookupA, hne]
    · simp only [insertA, if_neg h2, lookupA]
      by_cases h3 : k'' = k'
      · simp [h3]
      · simp [h3, ih]

theorem insertA_self_eq {α : Type} {m : AList α} {k : String} {v : α}
    (h : lookupA m k = some v) : insertA m k v = m := by
  induction m with
  | nil => simp [lookupA] at h
  | cons kv t ih =>
    obtain ⟨k', v'⟩ := kv
    by_cases h2 : k' = k
    · subst h2
      simp [lookupA] at h
      simp [insertA, h]
    · simp only [lookupA, if_neg h2] at h
      simp [insertA, h2, ih h]

theorem mem_insertA {α : Type} {m : AList α} {k : String} {v : α} {x : String × α}
    (h : x ∈ insertA m k v) : x = (k, v) ∨ x ∈ m := by
  induction m with
  | nil =>
    simp only [insertA, List.mem_singleton] at h
    exact Or.inl h
  | cons kv t ih =>
    obtain ⟨k', v'⟩ := kv
    by_cases h2 : k' = k
    · simp only [insertA, if_pos h2] at h
      rcases List.mem_cons.mp h with h3 | h3
      · exact Or.inl h3
      · exact Or.inr (List.mem_cons_of_mem _ h3)
    · simp only [insertA, if_neg h2] at h
      rcases List.mem_cons.mp h with h3 | h3
      · exact Or.inr (h3 ▸ List.mem_cons_self _ _)
      · rcases ih h3 with h4 | h4
        · exact Or.inl h4
        · exact Or.inr (List.mem_cons_of_mem _ h4)

theorem map_fst_insertA {α : Type} (m : AList α) (k : String) (v : α) :
    (insertA m k v).map Prod.fst =
      if k ∈ m.map Prod.fst then m.map Prod.fst else m.map Prod.fst ++ [k] := by
  induction m with
  | nil => simp [insertA]
  | cons kv t ih =>
    obtain ⟨k', v'⟩ := kv
    by_cases h2 : k' = k
    · subst h2
      simp [insertA]
    · simp only [insertA, if_neg h2, List.map_cons, List.mem_cons]
      have : ¬ k = k' := fun hh => h2 (hh ▸ rfl)
      by_cases h3 : k ∈ t.map Prod.fst
      · simp [h3, this, ih]
      · simp [h3, this, ih]

theorem keysNodup_insertA {α : Type} {m : AList α} (h : keysNodup m) (k : String) (v : α) :
    keysNodup (insertA m k v) := by
  unfold keysNodup at *
  rw [map_fst_insertA]
  by_cases h2 : k ∈ m.map Prod.fst
  · simpa [h2]
  · simpa [h2, List.nodup_append]

theorem lookupA_eq_of_mem {α : Type} {m : AList α} (h : keysNodup m) {k : String} {v : α}
    (hm : (k, v) ∈ m) : lookupA m k = some v := by
  induction m with
  | nil => simp at hm
  | cons kv t ih =>
    obtain ⟨k', v'⟩ := kv
    unfold keysNodup at h
    simp only [List.map_cons, List.nodup_cons] at h
    rcases List.mem_cons.mp hm with h2 | h2
    · simp only [Prod.mk.injEq] at h2
      obtain ⟨h21, h22⟩ := h2
      subst h21
      subst h22
      simp [lookupA]
    · have hne : k' ≠ k := by
        intro hk
        subst hk
        exact h.1 (List.mem_map.mpr ⟨(k', v), h2, rfl⟩)
      have h3 : keysNodup t := h.2
      simp [lookupA, hne, ih h3 h2]

theorem lookupA_mem {α : Type} {m : AList α} {k : String} {v : α}
    (h : lookupA m k = some v) : (k, v) ∈ m := by
  induction m with
  | nil => simp [lookupA] at h
  | cons kv t ih =>
    obtain ⟨k', v'⟩ := kv
    by_cases h2 : k' = k
    · subst h2
      simp [lookupA] at h
      simp [h]
    · simp only [lookupA, if_neg h2] at h
      exact List.mem_cons_of_mem _ (ih h)

theorem mget_insertA_self (m : StrMap) (k : String) (ov : Option Value) :
    mget (insertA m k ov) k = ov := by
  simp [mget, lookupA_insertA_self]

theorem mget_insertA_ne (m : StrMap) {k k' : String} (ov : Option Value) (h : k' ≠ k) :
    mget (insertA m k ov) k' = mget m k' := by
  simp [mget, lookupA_insertA_ne m ov h]

/-! ### Merge lemmas -/

theorem mergeNonNull_nil (s : StrMap) : mergeNonNull s [] = s := rfl

theorem mergeNonNull_cons_some (s : StrMap) (k : String) (v : Value) (t : StrMap) :
    mergeNonNull s ((k, some v) :: t) = mergeNonNull (insertA s k (some v)) t := rfl

theorem mergeNonNull_cons_none (s : StrMap) (k : String) (t : StrMap) :
    mergeNonNull s ((k, none) :: t) = mergeNonNull s t := rfl

theorem mergeNonNull_lookupA_not_mem (s : StrMap) {p : StrMap} {k : String}
    (h : k ∉ p.map Prod.fst) : lookupA (mergeNonNull s p) k = lookupA s k := by
  induction p generalizing s with
  | nil => rfl
  | cons kv t ih =>
    obtain ⟨k', ov⟩ := kv
    simp only [List.map_cons, List.mem_cons] at h
    push_neg at h
    cases ov with
    | none => rw [mergeNonNull_cons_none]; exact ih s h.2
    | some v =>
      rw [mergeNonNull_cons_some, ih _ h.2]
      exact lookupA_insertA_ne s (some v) h.1

theorem mergeNonNull_lookupA (s : StrMap) {p : StrMap} (k : String) (h : keysNodup p) :
    lookupA (mergeNonNull s p) k =
      match mget p k with
      | some v => some (some v)
      | none => lookupA s k := by
  induction p generalizing s with
  | nil => rfl
  | cons kv t ih =>
    obtain ⟨k', ov⟩ := kv
    unfold keysNodup at h
    simp only [List.map_cons, List.nodup_cons] at h
    by_cases h2 : k' = k
    · subst h2
      cases ov with
      | none =>
        rw [mergeNonNull_cons_none]
        have hnm : k' ∉ t.map Prod.fst := h.1
        rw [mergeNonNull_lookupA_not_mem s hnm]
        simp [mget, lookupA]
      | some v =>
        rw [mergeNonNull_cons_some]
        have hnm : k' ∉ t.map Prod.fst := h.1
        rw [mergeNonNull_lookupA_not_mem _ hnm, lookupA_insertA_self]
        simp [mget, lookupA]
    · have hg : mget ((k', ov) :: t) k = mget t k := by simp [mget, lookupA, h2]
      rw [hg]
      cases ov with
      | none => rw [mergeNonNull_cons_none]; exact ih s h.2
      | some v =>
        have hne : k ≠ k' := fun hh => h2 hh.symm
        rw [mergeNonNull_cons_some, ih _ h.2]
        cases hmt : mget t k with
        | some w => simp
        | none => simp [lookupA_insertA_ne s (some v) hne]

theorem mergeNonNull_self {s p : StrMap}
    (h : ∀ kv ∈ p, ∀ v, kv.2 = some v → lookupA s kv.1 = some (some v)) :
    mergeNonNull s p = s := by
  induction p with
  | nil => rfl
  | cons kv t ih =>
    obtain ⟨k, ov⟩ := kv
    cases ov with
    | none =>
      rw [mergeNonNull_cons_none]
      exact ih (fun kv hm v hv => h kv (List.mem_cons_of_mem _ hm) v hv)
    | some v =>
      rw [mergeNonNull_cons_some]
      rw [insertA_self_eq (h (k, some v) (List.mem_cons_self _ _) v rfl)]
      exact ih (fun kv hm v hv => h kv (List.mem_cons_of_mem _ hm) v hv)

theorem mergeNonNull_all_none {s p : StrMap} (h : ∀ kv ∈ p, kv.2 = none) :
    mergeNonNull s p = s :=
  mergeNonNull_self (fun kv hm v hv => by rw [h kv hm] at hv; cases hv)

theorem mergeNonNull_lookupA_null_entries (s : StrMap) {p : StrMap} {k : String}
    (h : ∀ ov, (k, ov) ∈ p → ov = none) :
    lookupA (mergeNonNull s p) k = lookupA s k := by
  induction p generalizing s with
  | nil => rfl
  | cons kv t ih =>
    obtain ⟨k', ov⟩ := kv
    by_cases h2 : k' = k
    · subst h2
      have : ov = none := h ov (List.mem_cons_self _ _)
      subst this
      rw [mergeNonNull_cons_none]
      exact ih s (fun ov hm => h ov (List.mem_cons_of_mem _ hm))
    · cases ov with
      | none =>
        rw [mergeNonNull_cons_none]
        exact ih s (fun ov hm => h ov (List.mem_cons_of_mem _ hm))
      | some v =>
        rw [mergeNonNull_cons_some, ih _ (fun ov hm => h ov (List.mem_cons_of_mem _ hm))]
        exact lookupA_insertA_ne _ _ (fun hh : k = k' => h2 hh.symm)

theorem mergeNonNull_preserves_filled {s : StrMap} (p : StrMap) {k : String} {v : Value}
    (h : lookupA s k = some (some v)) :
    ∃ w, lookupA (mergeNonNull s p) k = some (some w) := by
  induction p generalizing s v with
  | nil => exact ⟨v, h⟩
  | cons kv t ih =>
    obtain ⟨k', ov⟩ := kv
    cases ov with
    | none => rw [mergeNonNull_cons_none]; exact ih h
    | some u =>
      rw [mergeNonNull_cons_some]
      by_cases h2 : k' = k
      · subst h2
        exact ih (lookupA_insertA_self s k' (some u))
      · have hne : k ≠ k' := fun hh => h2 hh.symm
        have h3 : lookupA (insertA s k' (some u)) k = some (some v) := by
          rw [lookupA_insertA_ne s (some u) hne]
          exact h
        exact ih h3

/-! ### `oAlt`: Python's "fill only if still None" combinator -/


theorem oAlt_some (v : Value) (b : Option Value) : oAlt (some v) b = some v := rfl

theorem oAlt_none (b : Option Value) : oAlt none b = b := rfl

theorem oAlt_right_none (a : Option Value) : oAlt a none = a := by cases a <;> rfl

theorem oAlt_eq_some {a b : Option Value} {v : Value} :
    oAlt a b = some v ↔ a = some v ∨ (a = none ∧ b = some v) := by
  cases a <;> simp [oAlt]

theorem oAlt_eq_none {a b : Option Value} :
    oAlt a b = none ↔ a = none ∧ b = none := by
  cases a <;> simp [oAlt]

/-! ### Characterizations of the three coreference fill passes -/

theorem fillSlotKey_mget (s : StrMap) (kk : String) (r : StrMap) (k : String) :
    mget (fillSlotKey s kk r) k =
      if k = kk then oAlt (mget r k) ((lookupA s kk).join) else mget r k := by
  unfold fillSlotKey
  cases hs : lookupA s kk with
  | none =>
    simp only [Option.join]
    by_cases hk : k = kk <;> simp [hk, oAlt_right_none]
  | some ov =>
    simp only
    by_cases hg : (mget r kk).isNone
    · rw [if_pos hg]
      by_cases hk : k = kk
      · subst hk
        rw [if_pos rfl, mget_insertA_self]
        rw [Option.isNone_iff_eq_none] at hg
        simp [hg, oAlt]
      · rw [if_neg hk]
        exact mget_insertA_ne r ov hk
    · rw [if_neg hg]
      by_cases hk : k = kk
      · subst hk
        rw [if_pos rfl]
        cases hm : mget r k with
        | none => rw [hm] at hg; simp at hg
        | some w => simp [oAlt]
      · rw [if_neg hk]



theorem fillFromSlots_mget (s : StrMap) (r : StrMap) (k : String) :
    mget (fillFromSlots s r) k =
      if isFillKey k then oAlt (mget r k) ((lookupA s k).join) else mget r k := by
  unfold fillFromSlots
  rw [fillSlotKey_mget, fillSlotKey_mget, fillSlotKey_mget]
  by_cases h1 : k = "altitude_ft"
  · subst h1
    simp [isFillKey]
  · by_cases h2 : k = "speed_value"
    · subst h2
      simp [isFillKey]
    · by_cases h3 : k = "heading_deg"
      · subst h3
        simp [isFillKey]
      · simp [isFillKey, h1, h2, h3]


theorem fillHistEntry_mget_ne (r : StrMap) (kv : String × Option Value) (k : String)
    (h : kv.1 ≠ k) : mget (fillHistEntry r kv) k = mget r k := by
  obtain ⟨k', ov⟩ := kv
  unfold fillHistEntry
  cases ov with
  | none => rfl
  | some v =>
    simp only
    by_cases hg : (mget r k').isNone
    · rw [if_pos hg]
      exact mget_insertA_ne r (some v) (fun hh => h hh.symm)
    · rw [if_neg hg]

theorem fillFromHist_mget (h0 : StrMap) (r : StrMap) (k : String) :
    mget (fillFromHist h0 r) k = oAlt (mget r k) (getFirstSome h0 k) := by
  induction h0 generalizing r with
  | nil => simp [fillFromHist, getFirstSome, oAlt_right_none]
  | cons kv t ih =>
    obtain ⟨k', ov⟩ := kv
    have hstep : fillFromHist ((k', ov) :: t) r = fillFromHist t (fillHistEntry r (k', ov)) := rfl
    rw [hstep, ih]
    by_cases hk : k' = k
    · subst hk
      cases ov with
      | none => simp [fillHistEntry, getFirstSome]
      | some v =>
        have hgf : getFirstSome ((k', some v) :: t) k' = some v := by
          simp [getFirstSome]
        rw [hgf]
        by_cases hg : (mget r k') = none
        · have hstep2 : fillHistEntry r (k', some v) = insertA r k' (some v) := by
            simp [fillHistEntry, hg]
          rw [hstep2, mget_insertA_self, hg]
          simp [oAlt]
        · have hstep2 : fillHistEntry r (k', some v) = r := by
            simp [fillHistEntry, hg]
          rw [hstep2]
          cases hm : mget r k' with
          | none => exact absurd hm hg
          | some w => simp [oAlt]
    · rw [fillHistEntry_mget_ne r (k', ov) k hk]
      have hgf : getFirstSome ((k', ov) :: t) k = getFirstSome t k := by
        simp [getFirstSome, hk]
      rw [hgf]

theorem fillRefKey_mget (er : ERefs) (rn sn : String) (r : StrMap) (k : String) :
    mget (fillRefKey er rn sn r) k =
      if k = sn then oAlt (mget r k) (lookupA er rn) else mget r k := by
  unfold fillRefKey
  cases he : lookupA er rn with
  | none => by_cases hk : k = sn <;> simp [hk, oAlt_right_none]
  | some v =>
    simp only
    by_cases hg : (mget r sn).isNone
    · rw [if_pos hg]
      by_cases hk : k = sn
      · subst hk
        rw [if_pos rfl, mget_insertA_self]
        rw [Option.isNone_iff_eq_none] at hg
        simp [hg, oAlt]
      · rw [if_neg hk]
        exact mget_insertA_ne r (some v) hk
    · rw [if_neg hg]
      by_cases hk : k = sn
      · subst hk
        rw [if_pos rfl]
        cases hm : mget r k with
        | none => rw [hm] at hg; simp at hg
        | some w => simp [oAlt]
      · rw [if_neg hk]

theorem fillFromRefs_mget (er : ERefs) (r : StrMap) (k : String) :
    mget (fillFromRefs er r) k =
      if k = "altitude_ft" then oAlt (mget r k) (lookupA er "last_altitude")
      else if k = "speed_value" then oAlt (mget r k) (lookupA er "last_speed")
      else if k = "heading_deg" then oAlt (mget r k) (lookupA er "last_heading")
      else mget r k := by
  unfold fillFromRefs
  rw [fillRefKey_mget, fillRefKey_mget, fillRefKey_mget]
  by_cases h1 : k = "altitude_ft"
  · subst h1
    simp
  · by_cases h2 : k = "speed_value"
    · subst h2
      simp
    · by_cases h3 : k = "heading_deg"
      · subst h3
        simp
      · simp [h1, h2, h3]

/-! ### The resolution masks and the `_resolve_coreferences` characterization -/




/-- Per-key value of `_resolve_coreferences`: the parsed value, else the
`"it"` fill, else the `"first one"` fill, else the `"that"` fill. -/
theorem resolve_mget (st : DialogueState) (t : String) (p : StrMap) (k : String) :
    mget (resolve_coreferences st t p) k =
      oAlt (oAlt (oAlt (mget p k) (itMask st t p k)) (ordMask st t k)) (thatMask st t k) := by
  unfold resolve_coreferences itMask ordMask thatMask
  set r1 := if itTrigger (lowerStr t) && (optStrTruthy st.current_intent && !anyNonNull p) then
      fillFromSlots st.slots p
    else p with hr1
  have e1 : mget r1 k =
      oAlt (mget p k)
        (if itTrigger (lowerStr t) && (optStrTruthy st.current_intent && !anyNonNull p) then
          (if isFillKey k then (lookupA st.slots k).join else none)
        else none) := by
    rw [hr1]
    by_cases hIT : itTrigger (lowerStr t) && (optStrTruthy st.current_intent && !anyNonNull p)
    · rw [if_pos hIT, if_pos hIT, fillFromSlots_mget]
      by_cases hk : isFillKey k
      · rw [if_pos hk, if_pos hk]
      · rw [if_neg hk, if_neg hk, oAlt_right_none]
    · rw [if_neg hIT, if_neg hIT, oAlt_right_none]
  set r2 := match ordinalSearch t with
    | some o =>
      if o == "first" then
        match st.conversation_history with
        | [] => r1
        | t0 :: _ => fillFromHist t0.parameters r1
      else r1
    | none => r1 with hr2
  have e2 : mget r2 k =
      oAlt (mget r1 k)
        (match ordinalSearch t with
         | some o =>
           if o == "first" then
             match st.conversation_history with
             | [] => none
             | t0 :: _ => getFirstSome t0.parameters k
           else none
         | none => none) := by
    rw [hr2]
    cases ho : ordinalSearch t with
    | none => simp [oAlt_right_none]
    | some o =>
      by_cases hf : o == "first"
      · simp only [hf, if_true]
        cases hh : st.conversation_history with
        | nil => simp [oAlt_right_none]
        | cons t0 rest => simp [fillFromHist_mget]
      · simp only [hf, if_false, Bool.false_eq_true]
        simp [oAlt_right_none]
  by_cases hTH : thatTrigger (lowerStr t)
  · rw [if_pos hTH, if_pos hTH, fillFromRefs_mget, e2, e1]
    by_cases h1 : k = "altitude_ft"
    · simp [h1]
    · by_cases h2 : k = "speed_value"
      · simp [h1, h2]
      · by_cases h3 : k = "heading_deg"
        · simp [h1, h2, h3]
        · simp [h1, h2, h3, oAlt_right_none]
  · rw [if_neg hTH, if_neg hTH, e2, e1, oAlt_right_none]

/-- Resolution never overrides a non-null parsed parameter: each fill pass
is guarded by `resolved.get(key) is None`. -/
theorem resolve_preserves_some (st : DialogueState) (t : String) (p : StrMap) {k : String}
    {v : Value} (h : mget p k = some v) :
    mget (resolve_coreferences st t p) k = some v := by
  rw [resolve_mget, h, oAlt_some, oAlt_some, oAlt_some]

/-! ### Key-distinctness is preserved by the fill passes -/

theorem keysNodup_fillSlotKey {r : StrMap} (h : keysNodup r) (s : StrMap) (kk : String) :
    keysNodup (fillSlotKey s kk r) := by
  unfold fillSlotKey
  cases lookupA s kk with
  | none => exact h
  | some ov =>
    simp only
    split
    · exact keysNodup_insertA h kk ov
    · exact h

theorem keysNodup_fillFromSlots {r : StrMap} (h : keysNodup r) (s : StrMap) :
    keysNodup (fillFromSlots s r) :=
  keysNodup_fillSlotKey (keysNodup_fillSlotKey (keysNodup_fillSlotKey h s "altitude_ft") s "speed_value") s "heading_deg"

theorem keysNodup_fillHistEntry {r : StrMap} (h : keysNodup r) (kv : String × Option Value) :
    keysNodup (fillHistEntry r kv) := by
  obtain ⟨k', ov⟩ := kv
  unfold fillHistEntry
  cases ov with
  | none => exact h
  | some v =>
    simp only
    split
    · exact keysNodup_insertA h k' (some v)
    · exact h

theorem keysNodup_fillFromHist (h0 : StrMap) {r : StrMap} (h : keysNodup r) :
    keysNodup (fillFromHist h0 r) := by
  induction h0 generalizing r with
  | nil => exact h
  | cons kv t ih => exact ih (keysNodup_fillHistEntry h kv)

theorem keysNodup_fillRefKey {r : StrMap} (h : keysNodup r) (er : ERefs) (rn sn : String) :
    keysNodup (fillRefKey er rn sn r) := by
  unfold fillRefKey
  cases lookupA er rn with
  | none => exact h
  | some v =>
    simp only
    split
    · exact keysNodup_insertA h sn (some v)
    · exact h

theorem keysNodup_fillFromRefs {r : StrMap} (h : keysNodup r) (er : ERefs) :
    keysNodup (fillFromRefs er r) :=
  keysNodup_fillRefKey (keysNodup_fillRefKey (keysNodup_fillRefKey h er "last_altitude" "altitude_ft") er "last_speed" "speed_value") er "last_heading" "heading_deg"



/-- `_resolve_coreferences` is the three stages in sequence. -/
theorem resolve_eq_stages (st : DialogueState) (t : String) (p : StrMap) :
    resolve_coreferences st t p =
      if thatTrigger (lowerStr t) then
        fillFromRefs st.entity_references (resStage2 st t (resStage1 st t p))
      else resStage2 st t (resStage1 st t p) := rfl

theorem keysNodup_resolve {p : StrMap} (h : keysNodup p) (st : DialogueState) (t : String) :
    keysNodup (resolve_coreferences st t p) := by
  rw [resolve_eq_stages]
  have h1 : keysNodup (resStage1 st t p) := by
    unfold resStage1
    split
    · exact keysNodup_fillFromSlots h st.slots
    · exact h
  have h2 : keysNodup (resStage2 st t (resStage1 st t p)) := by
    unfold resStage2
    cases ordinalSearch t with
    | none => exact h1
    | some o =>
      simp only
      split
      · cases st.conversation_history with
        | nil => exact h1
        | cons t0 rest => exact keysNodup_fillFromHist _ h1
      · exact h1
  split
  · exact keysNodup_fillFromRefs h2 st.entity_references
  · exact h2

/-! ### Membership bounds on the fill passes -/

theorem mem_fillSlotKey {s : StrMap} {kk : String} {r : StrMap} {x : String × Option Value}
    (h : x ∈ fillSlotKey s kk r) : x ∈ r ∨ (x.1 = kk ∧ lookupA s kk = some x.2) := by
  unfold fillSlotKey at h
  cases hs : lookupA s kk with
  | none => rw [hs] at h; exact Or.inl h
  | some ov =>
    rw [hs] at h
    simp only at h
    by_cases hg : (mget r kk).isNone
    · rw [if_pos hg] at h
      rcases mem_insertA h with h2 | h2
      · right
        refine ⟨?_, ?_⟩ <;> simp [h2, hs]
      · exact Or.inl h2
    · rw [if_neg hg] at h
      exact Or.inl h

theorem mem_fillFromSlots {s : StrMap} {r : StrMap} {x : String × Option Value}
    (h : x ∈ fillFromSlots s r) : x ∈ r ∨ lookupA s x.1 = some x.2 := by
  unfold fillFromSlots at h
  rcases mem_fillSlotKey h with h2 | h2
  · rcases mem_fillSlotKey h2 with h3 | h3
    · rcases mem_fillSlotKey h3 with h4 | h4
      · exact Or.inl h4
      · exact Or.inr (h4.1 ▸ h4.2)
    · exact Or.inr (h3.1 ▸ h3.2)
  · exact Or.inr (h2.1 ▸ h2.2)

/-! ### Field characterizations of the state-updating methods -/

theorem update_pending_slots_slots (w : DialogueState) :
    (update_pending_slots w).slots = w.slots := by
  unfold update_pending_slots
  split <;> rfl

theorem update_pending_slots_current (w : DialogueState) :
    (update_pending_slots w).current_intent = w.current_intent := by
  unfold update_pending_slots
  split <;> rfl

theorem update_pending_slots_er (w : DialogueState) :
    (update_pending_slots w).entity_references = w.entity_references := by
  unfold update_pending_slots
  split <;> rfl

theorem update_pending_slots_hist (w : DialogueState) :
    (update_pending_slots w).conversation_history = w.conversation_history := by
  unfold update_pending_slots
  split <;> rfl

theorem update_pending_slots_tc (w : DialogueState) :
    (update_pending_slots w).turn_count = w.turn_count := by
  unfold update_pending_slots
  split <;> rfl

theorem update_pending_slots_la (w : DialogueState) :
    (update_pending_slots w).last_action = w.last_action := by
  unfold update_pending_slots
  split <;> rfl

/-- `_update_pending_slots` computes the filter formula uniformly: for a
falsy intent (`None` or `""`) the table lookup would give `[]` anyway. -/
theorem update_pending_slots_pending (w : DialogueState) :
    (update_pending_slots w).pending_slots =
      (requiredSlots (w.current_intent.getD "")).filter
        (fun slot => (mget w.slots slot).isNone) := by
  unfold update_pending_slots
  by_cases h : optStrTruthy w.current_intent
  · rw [if_pos h]
  · rw [if_neg h]
    cases hc : w.current_intent with
    | none => rfl
    | some s =>
      rw [hc] at h
      simp only [optStrTruthy, bne_iff_ne, ne_eq, Decidable.not_not] at h
      subst h
      rfl

theorem extract_parameter_updates_fields (st : DialogueState) (t : String) :
    (extract_parameter_updates st t).current_intent = st.current_intent ∧
    (extract_parameter_updates st t).entity_references = st.entity_references ∧
    (extract_parameter_updates st t).conversation_history = st.conversation_history ∧
    (extract_parameter_updates st t).turn_count = st.turn_count ∧
    (extract_parameter_updates st t).last_action = st.last_action := by
  unfold extract_parameter_updates
  cases firstNumber t with
  | none => exact ⟨rfl, rfl, rfl, rfl, rfl⟩
  | some n =>
    simp only
    repeat' split
    all_goals exact ⟨rfl, rfl, rfl, rfl, rfl⟩

theorem update_intent_and_slots_slots (st : DialogueState) (i : String) (p : StrMap) :
    (update_intent_and_slots st i p).slots = mergeNonNull st.slots p := by
  unfold update_intent_and_slots
  split <;> rfl

theorem update_intent_and_slots_current (st : DialogueState) (i : String) (p : StrMap) :
    (update_intent_and_slots st i p).current_intent =
      if i == "" then st.current_intent else some i := by
  unfold update_intent_and_slots
  split <;> simp_all

theorem update_intent_and_slots_er (st : DialogueState) (i : String) (p : StrMap) :
    (update_intent_and_slots st i p).entity_references = st.entity_references := by
  unfold update_intent_and_slots
  split <;> rfl

theorem update_intent_and_slots_hist (st : DialogueState) (i : String) (p : StrMap) :
    (update_intent_and_slots st i p).conversation_history = st.conversation_history := by
  unfold update_intent_and_slots
  split <;> rfl

theorem update_intent_and_slots_tc (st : DialogueState) (i : String) (p : StrMap) :
    (update_intent_and_slots st i p).turn_count = st.turn_count := by
  unfold update_intent_and_slots
  split <;> rfl

theorem update_intent_and_slots_la (st : DialogueState) (i : String) (p : StrMap) :
    (update_intent_and_slots st i p).last_action = st.last_action := by
  unfold update_intent_and_slots
  split <;> rfl

theorem handle_correction_slots (st : DialogueState) (i : String) (p : StrMap) (t : String) :
    (handle_correction st i p t).slots =
      mergeNonNull (extract_parameter_updates st t).slots p := by
  unfold handle_correction
  split <;> rfl

theorem handle_correction_current (st : DialogueState) (i : String) (p : StrMap) (t : String) :
    (handle_correction st i p t).current_intent =
      if i == "" then st.current_intent else some i := by
  unfold handle_correction
  split <;> simp_all [extract_parameter_updates_fields st t]

theorem handle_correction_er (st : DialogueState) (i : String) (p : StrMap) (t : String) :
    (handle_correction st i p t).entity_references = st.entity_references := by
  unfold handle_correction
  split <;> simp_all [(extract_parameter_updates_fields st t).2.1]

theorem handle_correction_hist (st : DialogueState) (i : String) (p : StrMap) (t : String) :
    (handle_correction st i p t).conversation_history = st.conversation_history := by
  unfold handle_correction
  split <;> simp_all [(extract_parameter_updates_fields st t).2.2.1]

theorem handle_correction_tc (st : DialogueState) (i : String) (p : StrMap) (t : String) :
    (handle_correction st i p t).turn_count = st.turn_count := by
  unfold handle_correction
  split <;> simp_all [(extract_parameter_updates_fields st t).2.2.2.1]

theorem handle_correction_la (st : DialogueState) (i : String) (p : StrMap) (t : String) :
    (handle_correction st i p t).last_action = st.last_action := by
  unfold handle_correction
  split <;> simp_all [(extract_parameter_updates_fields st t).2.2.2.2]

theorem extract_entities_slots (st : DialogueState) (t i : String) (p : StrMap) :
    (extract_entities st t i p).slots = st.slots := rfl

theorem extract_entities_current (st : DialogueState) (t i : String) (p : StrMap) :
    (extract_entities st t i p).current_intent = st.current_intent := rfl

theorem extract_entities_er (st : DialogueState) (t i : String) (p : StrMap) :
    (extract_entities st t i p).entity_references =
      erUpdate st.entity_references t p st.turn_count := rfl

theorem extract_entities_hist (st : DialogueState) (t i : String) (p : StrMap) :
    (extract_entities st t i p).conversation_history = st.conversation_history := rfl

theorem finish_turn_slots (st : DialogueState) (i : String) (p : StrMap) (t : String) :
    (finish_turn st i p t).slots =
      mergeNonNull st.slots (resolve_coreferences (extract_entities st t i p) t p) := by
  unfold finish_turn
  rw [update_pending_slots_slots]
  split <;> rfl

theorem finish_turn_current (st : DialogueState) (i : String) (p : StrMap) (t : String) :
    (finish_turn st i p t).current_intent =
      if i == "" then st.current_intent else some i := by
  unfold finish_turn
  rw [update_pending_slots_current]
  split <;> simp_all [extract_entities_current]

theorem finish_turn_er (st : DialogueState) (i : String) (p : StrMap) (t : String) :
    (finish_turn st i p t).entity_references =
      erUpdate st.entity_references t p st.turn_count := by
  unfold finish_turn
  rw [update_pending_slots_er]
  split <;> rfl

theorem finish_turn_hist (st : DialogueState) (i : String) (p : StrMap) (t : String) :
    (finish_turn st i p t).conversation_history = st.conversation_history := by
  unfold finish_turn
  rw [update_pending_slots_hist]
  split <;> rfl

theorem finish_turn_tc (st : DialogueState) (i : String) (p : StrMap) (t : String) :
    (finish_turn st i p t).turn_count = st.turn_count := by
  unfold finish_turn
  rw [update_pending_slots_tc]
  split <;> rfl

theorem finish_turn_la (st : DialogueState) (i : String) (p : StrMap) (t : String) :
    (finish_turn st i p t).last_action = st.last_action := by
  unfold finish_turn
  rw [update_pending_slots_la]
  split <;> rfl



/-- Under `wpSafe`, the three `last_*` references after `_extract_entities`
are determined by the old references and the parsed parameters alone. -/
theorem erUpdate_lookup_last (er : ERefs) (t : String) (p : StrMap) (tc : Nat)
    (hwp : wpSafe t = true) :
    lookupA (erUpdate er t p tc) "last_altitude" =
      lastRefStep (lookupA er "last_altitude") (mget p "altitude_ft") ∧
    lookupA (erUpdate er t p tc) "last_speed" =
      lastRefStep (lookupA er "last_speed") (mget p "speed_value") ∧
    lookupA (erUpdate er t p tc) "last_heading" =
      lastRefStep (lookupA er "last_heading") (mget p "heading_deg") := by
  unfold erUpdate
  set er1 := if strHas (lowerStr t) "aircraft" || strHas (lowerStr t) "plane" then
      insertA er "aircraft" (Value.entity "aircraft" none tc)
    else er with he1
  have h1 : ∀ k : String, k ≠ "aircraft" → lookupA er1 k = lookupA er k := by
    intro k hk
    rw [he1]
    split
    · exact lookupA_insertA_ne er _ hk
    · rfl
  set er2 := match waypointSearch t with
    | some nm => insertA er1 nm (Value.entity "waypoint" (some nm) tc)
    | none => er1 with he2
  have h2 : ∀ k : String, (k = "last_altitude" ∨ k = "last_speed" ∨ k = "last_heading") →
      lookupA er2 k = lookupA er1 k := by
    intro k hk
    rw [he2]
    cases hw : waypointSearch t with
    | none => rfl
    | some nm =>
      unfold wpSafe at hwp
      rw [hw] at hwp
      simp only [Bool.not_eq_eq_eq_not, Bool.not_true, Bool.or_eq_false_iff,
        beq_eq_false_iff_ne, ne_eq] at hwp
      obtain ⟨⟨hw1, hw2⟩, hw3⟩ := hwp
      have hne : k ≠ nm := by
        rcases hk with rfl | rfl | rfl
        · exact fun hh => hw1 hh.symm
        · exact fun hh => hw2 hh.symm
        · exact fun hh => hw3 hh.symm
      exact lookupA_insertA_ne er1 _ hne
  set er3 := match mget p "altitude_ft" with
    | some v => if v.truthy then insertA er2 "last_altitude" v else er2
    | none => er2 with he3
  have h3alt : lookupA er3 "last_altitude" =
      lastRefStep (lookupA er2 "last_altitude") (mget p "altitude_ft") := by
    rw [he3]
    cases mget p "altitude_ft" with
    | none => rfl
    | some v =>
      simp only [lastRefStep]
      split
      · rw [lookupA_insertA_self]
      · rfl
  have h3other : ∀ k : String, k ≠ "last_altitude" → lookupA er3 k = lookupA er2 k := by
    intro k hk
    rw [he3]
    cases mget p "altitude_ft" with
    | none => rfl
    | some v =>
      simp only
      split
      · exact lookupA_insertA_ne er2 _ hk
      · rfl
  set er4 := match mget p "speed_value" with
    | some v => if v.truthy then insertA er3 "last_speed" v else er3
    | none => er3 with he4
  have h4spd : lookupA er4 "last_speed" =
      lastRefStep (lookupA er3 "last_speed") (mget p "speed_value") := by
    rw [he4]
    cases mget p "speed_value" with
    | none => rfl
    | some v =>
      simp only [lastRefStep]
      split
      · rw [lookupA_insertA_self]
      · rfl
  have h4other : ∀ k : String, k ≠ "last_speed" → lookupA er4 k = lookupA er3 k := by
    intro k hk
    rw [he4]
    cases mget p "speed_value" with
    | none => rfl
    | some v =>
      simp only
      split
      · exact lookupA_insertA_ne er3 _ hk
      · rfl
  have h5hdg : ∀ er5res : ERefs,
      er5res = (match mget p "heading_deg" with
        | some v => if v.truthy then insertA er4 "last_heading" v else er4
        | none => er4) →
      lookupA er5res "last_heading" =
        lastRefStep (lookupA er4 "last_heading") (mget p "heading_deg") := by
    intro er5res he5
    rw [he5]
    cases mget p "heading_deg" with
    | none => rfl
    | some v =>
      simp only [lastRefStep]
      split
      · rw [lookupA_insertA_self]
      · rfl
  have h5other : ∀ (er5res : ERefs) (k : String),
      er5res = (match mget p "heading_deg" with
        | some v => if v.truthy then insertA er4 "last_heading" v else er4
        | none => er4) →
      k ≠ "last_heading" → lookupA er5res k = lookupA er4 k := by
    intro er5res k he5 hk
    rw [he5]
    cases mget p "heading_deg" with
    | none => rfl
    | some v =>
      simp only
      split
      · exact lookupA_insertA_ne er4 _ hk
      · rfl
  refine ⟨?_, ?_, ?_⟩
  · rw [h5other _ "last_altitude" rfl (by decide), h4other _ (by decide), h3alt,
      h2 _ (Or.inl rfl), h1 _ (by decide)]
  · rw [h5other _ "last_speed" rfl (by decide), h4spd, h3other _ (by decide),
      h2 _ (Or.inr (Or.inl rfl)), h1 _ (by decide)]
  · rw [h5hdg _ rfl, h4other _ (by decide), h3other _ (by decide),
      h2 _ (Or.inr (Or.inr rfl)), h1 _ (by decide)]


theorem update_state_core_nc (st : DialogueState) (cI : Option String) (p : StrMap)
    (t : String) (h : is_correction t = false) :
    update_state_core st cI p t =
      finish_turn (update_intent_and_slots (histStep st cI p t) (lowerStr (cI.getD "")) p)
        (lowerStr (cI.getD "")) p t := by
  unfold update_state_core histStep
  simp only [h, Bool.false_eq_true, if_false]

theorem update_state_core_corr (st : DialogueState) (cI : Option String) (p : StrMap)
    (t : String) (h : is_correction t = true) :
    update_state_core st cI p t =
      (let stA := histStep st cI p t
       let intent0 := lowerStr (cI.getD "")
       let intent1 :=
         if (intent0 == "" || intent0 == "status") && optStrTruthy stA.current_intent then
           lowerStr (stA.current_intent.getD "")
         else intent0
       let stB := handle_correction stA intent1 p t
       let intent2 :=
         if optStrTruthy stB.current_intent then lowerStr (stB.current_intent.getD "")
         else intent1
       finish_turn stB intent2 p t) := by
  unfold update_state_core histStep
  simp only [h, if_true]

/-- A truthy parsed value always lands in its `last_*` reference, whatever
was there before (the `last_*` writes are the final ones of
`_extract_entities`). -/
theorem erUpdate_truthy (er : ERefs) (t : String) (p : StrMap) (tc : Nat) :
    (∀ v : Value, mget p "altitude_ft" = some v → v.truthy = true →
      lookupA (erUpdate er t p tc) "last_altitude" = some v) ∧
    (∀ v : Value, mget p "speed_value" = some v → v.truthy = true →
      lookupA (erUpdate er t p tc) "last_speed" = some v) ∧
    (∀ v : Value, mget p "heading_deg" = some v → v.truthy = true →
      lookupA (erUpdate er t p tc) "last_heading" = some v) := by
  unfold erUpdate
  set er1 := if strHas (lowerStr t) "aircraft" || strHas (lowerStr t) "plane" then
      insertA er "aircraft" (Value.entity "aircraft" none tc)
    else er with he1
  set er2 := match waypointSearch t with
    | some nm => insertA er1 nm (Value.entity "waypoint" (some nm) tc)
    | none => er1 with he2
  set er3 := match mget p "altitude_ft" with
    | some v => if v.truthy then insertA er2 "last_altitude" v else er2
    | none => er2 with he3
  set er4 := match mget p "speed_value" with
    | some v => if v.truthy then insertA er3 "last_speed" v else er3
    | none => er3 with he4
  refine ⟨?_, ?_, ?_⟩
  · intro v hv ht
    have h3 : lookupA er3 "last_altitude" = some v := by
      rw [he3, hv]
      simp only [ht, if_true]
      exact lookupA_insertA_self er2 _ v
    have h4 : lookupA er4 "last_altitude" = some v := by
      rw [he4]
      cases mget p "speed_value" with
      | none => exact h3
      | some u =>
        simp only
        split
        · rw [lookupA_insertA_ne er3 u (by decide)]
          exact h3
        · exact h3
    cases mget p "heading_deg" with
    | none => exact h4
    | some w =>
      simp only
      split
      · rw [lookupA_insertA_ne er4 w (by decide)]
        exact h4
      · exact h4
  · intro v hv ht
    have h4 : lookupA er4 "last_speed" = some v := by
      rw [he4, hv]
      simp only [ht, if_true]
      exact lookupA_insertA_self er3 _ v
    cases mget p "heading_deg" with
    | none => exact h4
    | some w =>
      simp only
      split
      · rw [lookupA_insertA_ne er4 w (by decide)]
        exact h4
      · exact h4
  · intro v hv ht
    rw [hv]
    simp only [ht, if_true]
    exact lookupA_insertA_self er4 _ v

/-! ### `update_state` field characterizations -/

theorem update_state_er (st : DialogueState) (c : ParsedCommand) (t : String) :
    (update_state st c t).entity_references =
      erUpdate st.entity_references t (c.parameters.getD []) (st.turn_count + 1) := by
  unfold update_state
  by_cases hc : is_correction t = true
  · rw [update_state_core_corr st c.intent _ t hc]
    simp only [finish_turn_er, handle_correction_er, handle_correction_tc, histStep]
  · rw [update_state_core_nc st c.intent _ t (by simpa using hc)]
    simp only [finish_turn_er, update_intent_and_slots_er, update_intent_and_slots_tc, histStep]

theorem update_state_tc (st : DialogueState) (c : ParsedCommand) (t : String) :
    (update_state st c t).turn_count = st.turn_count + 1 := by
  unfold update_state
  by_cases hc : is_correction t = true
  · rw [update_state_core_corr st c.intent _ t hc]
    simp only [finish_turn_tc, handle_correction_tc, histStep]
  · rw [update_state_core_nc st c.intent _ t (by simpa using hc)]
    simp only [finish_turn_tc, update_intent_and_slots_tc, histStep]

theorem update_state_la (st : DialogueState) (c : ParsedCommand) (t : String) :
    (update_state st c t).last_action = st.last_action := by
  unfold update_state
  by_cases hc : is_correction t = true
  · rw [update_state_core_corr st c.intent _ t hc]
    simp only [finish_turn_la, handle_correction_la, histStep]
  · rw [update_state_core_nc st c.intent _ t (by simpa using hc)]
    simp only [finish_turn_la, update_intent_and_slots_la, histStep]

theorem update_state_hist (st : DialogueState) (c : ParsedCommand) (t : String) :
    (update_state st c t).conversation_history =
      st.conversation_history ++
        [{ turn := st.turn_count + 1, user_input := t, intent := c.intent,
           parameters := c.parameters.getD [] }] := by
  unfold update_state
  by_cases hc : is_correction t = true
  · rw [update_state_core_corr st c.intent _ t hc]
    simp only [finish_turn_hist, handle_correction_hist, histStep]
  · rw [update_state_core_nc st c.intent _ t (by simpa using hc)]
    simp only [finish_turn_hist, update_intent_and_slots_hist, histStep]

theorem histStep_slots (st : DialogueState) (cI : Option String) (p : StrMap) (t : String) :
    (histStep st cI p t).slots = st.slots := rfl

theorem histStep_current (st : DialogueState) (cI : Option String) (p : StrMap) (t : String) :
    (histStep st cI p t).current_intent = st.current_intent := rfl

theorem histStep_er (st : DialogueState) (cI : Option String) (p : StrMap) (t : String) :
    (histStep st cI p t).entity_references = st.entity_references := rfl

theorem histStep_tc (st : DialogueState) (cI : Option String) (p : StrMap) (t : String) :
    (histStep st cI p t).turn_count = st.turn_count + 1 := rfl

/-- The altitude branch of the extractor in isolation. -/
theorem extract_alt (st : DialogueState) (t : String) (n : Nat)
    (h1 : firstNumber t = some n) (h2 : altKeyword (lowerStr t) = true) :
    extract_parameter_updates st t =
      { st with slots := insertA st.slots "altitude_ft" (some (Value.int (Int.ofNat n))) } := by
  unfold extract_parameter_updates
  rw [h1]
  simp only
  rw [if_pos h2]

/-- The correction branch of `update_state`, with the intermediate states
and intents named. -/
theorem update_state_corr_fields (st : DialogueState) (c : ParsedCommand) (t : String)
    (h : is_correction t = true) :
    ∃ (stA stB : DialogueState) (intent1 intent2 : String),
      stA = histStep st c.intent (c.parameters.getD []) t ∧
      intent1 = (if (lowerStr (c.intent.getD "") == "" || lowerStr (c.intent.getD "") == "status")
            && optStrTruthy st.current_intent then
          lowerStr (st.current_intent.getD "")
        else lowerStr (c.intent.getD "")) ∧
      stB = handle_correction stA intent1 (c.parameters.getD []) t ∧
      intent2 = (if optStrTruthy stB.current_intent then lowerStr (stB.current_intent.getD "")
        else intent1) ∧
      update_state st c t = finish_turn stB intent2 (c.parameters.getD []) t := by
  refine ⟨_, _, _, _, rfl, rfl, rfl, rfl, ?_⟩
  unfold update_state
  rw [update_state_core_corr st c.intent _ t h]
  rfl

/-! ### Claim theorems -/

/-- C10: `merge_parsed_with_state` never mutates the tracker's state — all
seven state fields are identical before and after the call; the method only
reads the state to build and return the merged command. -/
theorem C10_merge_frame (st : DialogueState) (c : ParsedCommand) :
    (merge_parsed_with_state st c).1.current_intent = st.current_intent ∧
    (merge_parsed_with_state st c).1.slots = st.slots ∧
    (merge_parsed_with_state st c).1.pending_slots = st.pending_slots ∧
    (merge_parsed_with_state st c).1.entity_references = st.entity_references ∧
    (merge_parsed_with_state st c).1.conversation_history = st.conversation_history ∧
    (merge_parsed_with_state st c).1.last_action = st.last_action ∧
    (merge_parsed_with_state st c).1.turn_count = st.turn_count :=
  ⟨rfl, rfl, rfl, rfl, rfl, rfl, rfl⟩

/-- C4: the Parameter-Update Extractor uses only the first integer in the
raw text, makes no slot change when no integer is present, routes the
integer by first keyword match in the fixed priority order altitude →
speed → heading, and otherwise falls back on the current intent
(change_altitude/change_speed/change_direction); any other or absent
intent leaves the state unchanged. -/
theorem C4_extractor_contract (st : DialogueState) (t : String) :
    (firstNumber t = none → extract_parameter_updates st t = st) ∧
    (∀ n : Nat, firstNumber t = some n →
      ((altKeyword (lowerStr t) = true →
        extract_parameter_updates st t =
          { st with slots := insertA st.slots "altitude_ft" (some (Value.int (Int.ofNat n))) }) ∧
      (altKeyword (lowerStr t) = false → speedKeyword (lowerStr t) = true →
        extract_parameter_updates st t =
          { st with slots := insertA st.slots "speed_value" (some (Value.int (Int.ofNat n))) }) ∧
      (altKeyword (lowerStr t) = false → speedKeyword (lowerStr t) = false →
          headingKeyword (lowerStr t) = true →
        extract_parameter_updates st t =
          { st with slots := insertA st.slots "heading_deg" (some (Value.int (Int.ofNat n))) }) ∧
      (altKeyword (lowerStr t) = false → speedKeyword (lowerStr t) = false →
          headingKeyword (lowerStr t) = false →
        ((st.current_intent = some "change_altitude" →
          extract_parameter_updates st t =
            { st with slots := insertA st.slots "altitude_ft" (some (Value.int (Int.ofNat n))) }) ∧
        (st.current_intent = some "change_speed" →
          extract_parameter_updates st t =
            { st with slots := insertA st.slots "speed_value" (some (Value.int (Int.ofNat n))) }) ∧
        (st.current_intent = some "change_direction" →
          extract_parameter_updates st t =
            { st with slots := insertA st.slots "heading_deg" (some (Value.int (Int.ofNat n))) }) ∧
        (∀ ci : String, st.current_intent = some ci → ci ≠ "change_altitude" →
          ci ≠ "change_speed" → ci ≠ "change_direction" →
          extract_parameter_updates st t = st) ∧
        (st.current_intent = none → extract_parameter_updates st t = st))))) := by
  constructor
  · intro h
    unfold extract_parameter_updates
    rw [h]
  · intro n hn
    unfold extract_parameter_updates
    rw [hn]
    simp only
    refine ⟨?_, ?_, ?_, ?_⟩
    · intro ha
      rw [if_pos ha]
    · intro ha hs
      rw [if_neg (by simp [ha]), if_pos hs]
    · intro ha hs hh
      rw [if_neg (by simp [ha]), if_neg (by simp [hs]), if_pos hh]
    · intro ha hs hh
      rw [if_neg (by simp [ha]), if_neg (by simp [hs]), if_neg (by simp [hh])]
      refine ⟨?_, ?_, ?_, ?_, ?_⟩
      · intro hci
        rw [hci]
        simp only
        rw [if_pos (by decide)]
      · intro hci
        rw [hci]
        simp only
        rw [if_neg (by decide), if_pos (by decide)]
      · intro hci
        rw [hci]
        simp only
        rw [if_neg (by decide), if_neg (by decide), if_pos (by decide)]
      · intro ci hci h1 h2 h3
        rw [hci]
        simp only
        rw [if_neg (by simp [h1]), if_neg (by simp [h2]), if_neg (by simp [h3])]
      · intro hci
        rw [hci]

/-- C4 witness: a concrete speed-keyword routing. -/
theorem C4_witness :
    extract_parameter_updates initState "make it 250 knots" =
      { initState with slots := insertA initState.slots "speed_value" (some (Value.int 250)) } :=
  ((C4_extractor_contract initState "make it 250 knots").2 250 (by decide)).2.1
    (by decide) (by decide)

/-- C9: keyword matching is raw substring containment: whenever a
correction text contains an integer and the character sequence `ft`
anywhere (case-insensitively, e.g. inside the word `left`), the extractor
routes the first integer to `altitude_ft` and leaves `heading_deg`
unchanged, even if heading keywords are present. -/
theorem C9_ft_substring (st : DialogueState) (t : String) (n : Nat)
    (h1 : firstNumber t = some n) (h2 : strHas (lowerStr t) "ft" = true) :
    (extract_parameter_updates st t).slots =
      insertA st.slots "altitude_ft" (some (Value.int (Int.ofNat n))) ∧
    lookupA (extract_parameter_updates st t).slots "heading_deg" =
      lookupA st.slots "heading_deg" := by
  have ha : altKeyword (lowerStr t) = true := by
    unfold altKeyword
    rw [h2]
    simp
  have hx := extract_alt st t n h1 ha
  rw [hx]
  refine ⟨rfl, ?_⟩
  exact lookupA_insertA_ne st.slots _ (by decide)

/-- C9 witness: "actually turn left 20 degrees" routes 20 to `altitude_ft`
(the `ft` inside `left`), leaving the heading slot value 90 alone. -/
theorem C9_witness :
    (extract_parameter_updates
        ⟨some "change_direction", [("heading_deg", some (Value.int 90))], [], [], [], none, 0⟩
        "actually turn left 20 degrees").slots =
      insertA [("heading_deg", some (Value.int 90))] "altitude_ft" (some (Value.int 20)) ∧
    lookupA (extract_parameter_updates
        ⟨some "change_direction", [("heading_deg", some (Value.int 90))], [], [], [], none, 0⟩
        "actually turn left 20 degrees").slots "heading_deg" =
      lookupA [("heading_deg", some (Value.int 90))] "heading_deg" :=
  C9_ft_substring
    ⟨some "change_direction", [("heading_deg", some (Value.int 90))], [], [], [], none, 0⟩
    "actually turn left 20 degrees" 20 (by decide) (by decide)

/-- C5: after every `update_state` call, `pending_slots` equals the
required-slot names of the current intent (fixed table: change_speed →
[speed_value], change_altitude → [altitude_ft], change_direction →
[heading_deg, direction]) restricted, in table order, to names whose slot
is absent or null; any intent outside the table yields `[]`.  In
particular, with current intent change_direction and empty slots the
result is [heading_deg, direction]; once heading_deg is 90 it is
[direction]. -/
theorem C5_pending_slots :
    (∀ (st : DialogueState) (c : ParsedCommand) (t : String),
      (update_state st c t).pending_slots =
        (requiredSlots ((update_state st c t).current_intent.getD "")).filter
          (fun slot => (mget (update_state st c t).slots slot).isNone)) ∧
    (update_state ⟨some "change_direction", [], [], [], [], none, 0⟩
        ⟨none, none, none⟩ "x").pending_slots = ["heading_deg", "direction"] ∧
    (update_state ⟨some "change_direction", [("heading_deg", some (Value.int 90))], [], [], [], none, 0⟩
        ⟨none, none, none⟩ "x").pending_slots = ["direction"] := by
  refine ⟨?_, by decide, by decide⟩
  intro st c t
  have h : ∃ w : DialogueState, update_state st c t = update_pending_slots w := by
    unfold update_state
    by_cases hc : is_correction t = true
    · rw [update_state_core_corr st c.intent _ t hc]
      unfold finish_turn
      exact ⟨_, rfl⟩
    · rw [update_state_core_nc st c.intent _ t (by simpa using hc)]
      unfold finish_turn
      exact ⟨_, rfl⟩
  obtain ⟨w, hw⟩ := h
  rw [hw, update_pending_slots_current, update_pending_slots_slots,
    update_pending_slots_pending]

/-- C2 counterexample: a freshly parsed `heading_deg = 0` is non-null, yet
entity extraction does not store it under `last_heading` (the source tests
truthiness, and `0` is falsy). -/
theorem C2_counterexample :
    mget ((⟨some "change_direction", some [("heading_deg", some (Value.int 0))],
        none⟩ : ParsedCommand).parameters.getD []) "heading_deg" = some (Value.int 0) ∧
    lookupA (update_state initState
        ⟨some "change_direction", some [("heading_deg", some (Value.int 0))], none⟩
        "zz").entity_references "last_heading" = none :=
  ⟨by decide, by decide⟩

/-- C2 (amended): entity extraction stores a freshly parsed altitude_ft /
speed_value / heading_deg into last_altitude / last_speed / last_heading,
overwriting any prior value, whenever the parsed value is truthy; a falsy
value (such as 0) is not stored and the prior reference survives (stated
for heading under the no-waypoint-collision side condition). -/
theorem C2_truthy_entity_store (st : DialogueState) (c : ParsedCommand) (t : String) :
    (∀ v : Value, mget (c.parameters.getD []) "altitude_ft" = some v → v.truthy = true →
      lookupA (update_state st c t).entity_references "last_altitude" = some v) ∧
    (∀ v : Value, mget (c.parameters.getD []) "speed_value" = some v → v.truthy = true →
      lookupA (update_state st c t).entity_references "last_speed" = some v) ∧
    (∀ v : Value, mget (c.parameters.getD []) "heading_deg" = some v → v.truthy = true →
      lookupA (update_state st c t).entity_references "last_heading" = some v) ∧
    (wpSafe t = true →
      ∀ v : Value, mget (c.parameters.getD []) "heading_deg" = some v → v.truthy = false →
        lookupA (update_state st c t).entity_references "last_heading" =
          lookupA st.entity_references "last_heading") := by
  rw [update_state_er]
  obtain ⟨h1, h2, h3⟩ := erUpdate_truthy st.entity_references t (c.parameters.getD [])
    (st.turn_count + 1)
  refine ⟨h1, h2, h3, ?_⟩
  intro hwp v hv ht
  have := (erUpdate_lookup_last st.entity_references t (c.parameters.getD [])
    (st.turn_count + 1) hwp).2.2
  rw [this, hv]
  simp [lastRefStep, ht]

/-- C2 witness: a truthy altitude 7000 is stored. -/
theorem C2_witness :
    lookupA (update_state initState
        ⟨some "change_altitude", some [("altitude_ft", some (Value.int 7000))], none⟩
        "zz").entity_references "last_altitude" = some (Value.int 7000) :=
  (C2_truthy_entity_store initState
      ⟨some "change_altitude", some [("altitude_ft", some (Value.int 7000))], none⟩
      "zz").1 (Value.int 7000) (by decide) (by decide)

/-- A non-null freshly parsed parameter always ends up in `slots`: each
resolution fill is guarded by `resolved.get(key) is None`, so the parse
value survives both merges. -/
theorem parse_value_lands (st : DialogueState) (c : ParsedCommand) (t : String)
    (k : String) (v : Value) (h : mget (c.parameters.getD []) k = some v)
    (hnd : keysNodup (c.parameters.getD [])) :
    lookupA (update_state st c t).slots k = some (some v) := by
  unfold update_state
  by_cases hc : is_correction t = true
  · rw [update_state_core_corr st c.intent _ t hc]
    simp only [finish_turn_slots]
    rw [mergeNonNull_lookupA _ k (keysNodup_resolve hnd _ _)]
    rw [resolve_preserves_some _ _ _ h]
  · rw [update_state_core_nc st c.intent _ t (by simpa using hc)]
    simp only [finish_turn_slots]
    rw [mergeNonNull_lookupA _ k (keysNodup_resolve hnd _ _)]
    rw [resolve_preserves_some _ _ _ h]


/-- C1 counterexample: on the correction turn "actually make that 8000
feet" (parser returned nothing), the Parameter-Update Extractor writes
8000 into `slots['altitude_ft']`, but the coreference trigger `that`
resolves against `last_altitude = 5000` and the resolution merge
overwrites the extractor's value — the final slot is 5000, not 8000. -/
theorem C1_counterexample :
    is_correction "actually make that 8000 feet" = true ∧
    mget (extract_parameter_updates C1state "actually make that 8000 feet").slots
      "altitude_ft" = some (Value.int 8000) ∧
    mget (update_state C1state ⟨none, none, none⟩ "actually make that 8000 feet").slots
      "altitude_ft" = some (Value.int 5000) ∧
    Value.int 5000 ≠ Value.int 8000 :=
  ⟨by decide, by decide, by decide, by decide⟩

/-- C1 (amended): coreference resolution only fills parameter values the
parser did not already provide this turn — a non-null freshly parsed
parameter is never overridden and always ends up in `slots`.  (It does
not protect slot values written by the correction extractor in the same
turn, which the resolution merge can overwrite — see the counterexample.) -/
theorem C1_resolution_only_fills (st : DialogueState) (c : ParsedCommand) (t : String)
    (k : String) (v : Value) (h : mget (c.parameters.getD []) k = some v)
    (hnd : keysNodup (c.parameters.getD [])) :
    lookupA (update_state st c t).slots k = some (some v) :=
  parse_value_lands st c t k v h hnd

/-- C1 witness: a parsed altitude of 9000 survives the resolution merge. -/
theorem C1_witness :
    lookupA (update_state initState
        ⟨some "change_altitude", some [("altitude_ft", some (Value.int 9000))], none⟩
        "hello").slots "altitude_ft" = some (some (Value.int 9000)) :=
  C1_resolution_only_fills initState
    ⟨some "change_altitude", some [("altitude_ft", some (Value.int 9000))], none⟩
    "hello" "altitude_ft" (Value.int 9000) (by decide) (by decide)

/-- The correction extractor writes only concrete integers, so a filled
slot can never become null through it. -/
theorem extract_parameter_updates_preserves_filled (st : DialogueState) (t : String)
    {k : String} {v : Value} (h : lookupA st.slots k = some (some v)) :
    ∃ w : Value, lookupA (extract_parameter_updates st t).slots k = some (some w) := by
  have hins : ∀ (kk : String) (n' : Nat),
      ∃ w : Value, lookupA (insertA st.slots kk (some (Value.int (Int.ofNat n')))) k =
        some (some w) := by
    intro kk n'
    by_cases hk : k = kk
    · subst hk
      exact ⟨Value.int (Int.ofNat n'), lookupA_insertA_self st.slots k _⟩
    · refine ⟨v, ?_⟩
      rw [lookupA_insertA_ne st.slots _ hk]
      exact h
  unfold extract_parameter_updates
  cases firstNumber t with
  | none => exact ⟨v, h⟩
  | some n =>
    simp only
    repeat' split
    all_goals first
      | exact ⟨v, h⟩
      | exact hins "altitude_ft" n
      | exact hins "speed_value" n
      | exact hins "heading_deg" n

/-- When the raw text contains none of the coreference triggers, resolution
returns the parsed parameters unchanged. -/
theorem resolve_no_triggers (st : DialogueState) (t : String) (p : StrMap)
    (h1 : itTrigger (lowerStr t) = false) (h2 : ordinalSearch t ≠ some "first")
    (h3 : thatTrigger (lowerStr t) = false) :
    resolve_coreferences st t p = p := by
  rw [resolve_eq_stages]
  have hs1 : resStage1 st t p = p := by
    unfold resStage1
    rw [if_neg (by simp [h1])]
  have hs2 : resStage2 st t p = p := by
    unfold resStage2
    cases ho : ordinalSearch t with
    | none => rfl
    | some o =>
      simp only
      rw [if_neg ?_]
      simp only [beq_iff_eq]
      intro hh
      exact h2 (hh ▸ ho)
  rw [if_neg (by simp [h3]), hs1, hs2]


/-- C6 counterexample: `slots['altitude_ft'] = 8000` before the turn, the
parse maps `altitude_ft` to null, the text "do that" is no correction —
yet after the turn the slot is 3000 (coreference resolution filled the
null parse from `last_altitude` and the merge overwrote the slot). -/
theorem C6_counterexample :
    lookupA C6state.slots "altitude_ft" = some (some (Value.int 8000)) ∧
    mget ((⟨none, some [("altitude_ft", none)], none⟩ : ParsedCommand).parameters.getD [])
      "altitude_ft" = none ∧
    is_correction "do that" = false ∧
    mget (update_state C6state ⟨none, some [("altitude_ft", none)], none⟩ "do that").slots
      "altitude_ft" = some (Value.int 3000) ∧
    Value.int 3000 ≠ Value.int 8000 :=
  ⟨by decide, by decide, by decide, by decide, by decide⟩

/-- C6 (amended): a slot value is never overwritten with null — once
non-null it stays non-null after any turn.  And a non-null slot whose
parsed parameter is null this turn is preserved exactly, provided the turn
is not a correction and the raw text contains no coreference trigger
(`it` / `first one` / `that`); coreference resolution may otherwise
replace it with a different non-null value (see the counterexample). -/
theorem C6_null_never_overwrites (st : DialogueState) (c : ParsedCommand) (t : String)
    (k : String) (v : Value) :
    (lookupA st.slots k = some (some v) →
      ∃ w : Value, lookupA (update_state st c t).slots k = some (some w)) ∧
    (lookupA st.slots k = some (some v) →
      (∀ ov, (k, ov) ∈ c.parameters.getD [] → ov = none) →
      is_correction t = false →
      itTrigger (lowerStr t) = false →
      ordinalSearch t ≠ some "first" →
      thatTrigger (lowerStr t) = false →
      lookupA (update_state st c t).slots k = some (some v)) := by
  constructor
  · intro h
    unfold update_state
    by_cases hc : is_correction t = true
    · rw [update_state_core_corr st c.intent _ t hc]
      simp only [finish_turn_slots]
      rw [handle_correction_slots]
      obtain ⟨w1, hw1⟩ := extract_parameter_updates_preserves_filled
        (histStep st c.intent (c.parameters.getD []) t) t h
      obtain ⟨w2, hw2⟩ := mergeNonNull_preserves_filled (c.parameters.getD []) hw1
      exact mergeNonNull_preserves_filled _ hw2
    · rw [update_state_core_nc st c.intent _ t (by simpa using hc)]
      simp only [finish_turn_slots]
      rw [update_intent_and_slots_slots]
      obtain ⟨w2, hw2⟩ := mergeNonNull_preserves_filled (c.parameters.getD []) h
      exact mergeNonNull_preserves_filled _ hw2
  · intro h hp hcorr hit hord hthat
    unfold update_state
    rw [update_state_core_nc st c.intent _ t hcorr]
    simp only [finish_turn_slots]
    rw [update_intent_and_slots_slots, resolve_no_triggers _ t _ hit hord hthat,
      mergeNonNull_lookupA_null_entries _ hp, mergeNonNull_lookupA_null_entries _ hp]
    exact h

/-- C6 witness: with no triggers in "hello" the filled slot 8000 survives a
null parse for it. -/
theorem C6_witness :
    lookupA (update_state C6state ⟨none, some [("altitude_ft", none)], none⟩ "hello").slots
      "altitude_ft" = some (some (Value.int 8000)) :=
  (C6_null_never_overwrites C6state ⟨none, some [("altitude_ft", none)], none⟩ "hello"
      "altitude_ft" (Value.int 8000)).2 (by decide)
    (by
      intro ov hov
      simp only [Option.getD_some, List.mem_singleton, Prod.mk.injEq] at hov
      exact hov.2)
    (by decide) (by decide) (by decide) (by decide)

/-- C3: for every state with current intent `change_altitude`, a correction
turn "actually make it 8000 feet" whose parse has an empty (or "status")
intent and all-null parameters keeps `current_intent = change_altitude`
(the parser's guess is discarded in favour of context) and routes the
number to `slots['altitude_ft'] = 8000`. -/
theorem C3_correction_fallback (st : DialogueState) (c : ParsedCommand)
    (hci : st.current_intent = some "change_altitude")
    (hi : lowerStr (c.intent.getD "") = "" ∨ lowerStr (c.intent.getD "") = "status")
    (hp : ∀ kv ∈ c.parameters.getD [], kv.2 = none) :
    (update_state st c "actually make it 8000 feet").current_intent =
      some "change_altitude" ∧
    mget (update_state st c "actually make it 8000 feet").slots "altitude_ft" =
      some (Value.int 8000) := by
  obtain ⟨stA, stB, i1, i2, hA, h1, hB, h2, hU⟩ :=
    update_state_corr_fields st c "actually make it 8000 feet" (by decide)
  have hi1 : i1 = "change_altitude" := by
    rw [h1]
    have hcnd : ((lowerStr (c.intent.getD "") == "" || lowerStr (c.intent.getD "") == "status")
        && optStrTruthy st.current_intent) = true := by
      rcases hi with h | h <;> simp [h, hci, optStrTruthy]
    rw [if_pos hcnd, hci]
    decide
  have hBc : stB.current_intent = some "change_altitude" := by
    rw [hB, handle_correction_current, hi1, if_neg (by decide)]
  have hi2 : i2 = "change_altitude" := by
    rw [h2, hBc, if_pos (by decide)]
    decide
  have hBs : stB.slots = insertA st.slots "altitude_ft" (some (Value.int 8000)) := by
    rw [hB, handle_correction_slots, mergeNonNull_all_none hp]
    rw [extract_alt stA "actually make it 8000 feet" 8000 (by decide) (by decide)]
    rw [hA]
    rfl
  constructor
  · rw [hU, finish_turn_current, hi2, if_neg (by decide)]
  · rw [hU, finish_turn_slots]
    have hmerge : mergeNonNull stB.slots
        (resolve_coreferences
          (extract_entities stB "actually make it 8000 feet" i2 (c.parameters.getD []))
          "actually make it 8000 feet" (c.parameters.getD [])) = stB.slots := by
      apply mergeNonNull_self
      intro kv hkv v' hv'
      have hres : resolve_coreferences
          (extract_entities stB "actually make it 8000 feet" i2 (c.parameters.getD []))
          "actually make it 8000 feet" (c.parameters.getD []) =
          resStage1
            (extract_entities stB "actually make it 8000 feet" i2 (c.parameters.getD []))
            "actually make it 8000 feet" (c.parameters.getD []) := by
        rw [resolve_eq_stages, if_neg (by decide)]
        unfold resStage2
        have ho : ordinalSearch "actually make it 8000 feet" = none := by decide
        rw [ho]
      rw [hres] at hkv
      unfold resStage1 at hkv
      by_cases hIT : (itTrigger (lowerStr "actually make it 8000 feet")
          && (optStrTruthy (extract_entities stB "actually make it 8000 feet" i2
                (c.parameters.getD [])).current_intent
            && !anyNonNull (c.parameters.getD []))) = true
      · rw [if_pos hIT] at hkv
        rcases mem_fillFromSlots hkv with hx | hx
        · rw [hp kv hx] at hv'
          simp at hv'
        · rw [hv'] at hx
          exact hx
      · rw [if_neg hIT] at hkv
        rw [hp kv hkv] at hv'
        simp at hv'
    rw [hmerge, hBs, mget_insertA_self]

/-- C3 witness: the scenario at the concrete context state. -/
theorem C3_witness :
    (update_state ⟨some "change_altitude", [], [], [], [], none, 0⟩ ⟨none, none, none⟩
        "actually make it 8000 feet").current_intent = some "change_altitude" ∧
    mget (update_state ⟨some "change_altitude", [], [], [], [], none, 0⟩ ⟨none, none, none⟩
        "actually make it 8000 feet").slots "altitude_ft" = some (Value.int 8000) :=
  C3_correction_fallback ⟨some "change_altitude", [], [], [], [], none, 0⟩ ⟨none, none, none⟩
    rfl (Or.inl (by decide)) (fun kv hkv => absurd hkv (List.not_mem_nil kv))

/-! ### Lowercasing lemmas (for the intent fallback analysis) -/

theorem char_toNat_ofNat_valid {n : Nat} (h : n.isValidChar) : (Char.ofNat n).toNat = n := by
  unfold Char.ofNat
  rw [dif_pos h]
  rfl

theorem char_toLower_toLower (c : Char) : c.toLower.toLower = c.toLower := by
  unfold Char.toLower
  by_cases h : c.toNat ≥ 65 ∧ c.toNat ≤ 90
  · rw [if_pos h]
    have hval : (Char.ofNat (c.toNat + 32)).toNat = c.toNat + 32 :=
      char_toNat_ofNat_valid (Or.inl (by omega))
    have hno : ¬((Char.ofNat (c.toNat + 32)).toNat ≥ 65 ∧
        (Char.ofNat (c.toNat + 32)).toNat ≤ 90) := by
      rw [hval]
      omega
    rw [if_neg hno]
  · rw [if_neg h, if_neg h]

theorem lowerStr_idem (s : String) : lowerStr (lowerStr s) = lowerStr s := by
  have aux : ∀ l : List Char, (l.map Char.toLower).map Char.toLower = l.map Char.toLower := by
    intro l
    induction l with
    | nil => rfl
    | cons c cs ih => simp only [List.map_cons, char_toLower_toLower, ih]
  exact congrArg String.mk (aux s.data)

theorem lowerStr_eq_empty {s : String} : lowerStr s = "" ↔ s = "" := by
  constructor
  · intro h
    have h3 : s.data.map Char.toLower = [] := congrArg String.data h
    have h4 : s.data = [] := List.map_eq_nil_iff.mp h3
    cases s with
    | mk d =>
      simp only at h4
      rw [h4]
  · intro h
    rw [h]
    rfl

/-! ### Congruence of the pipeline in the history entry's `intent` field
(`update_state` never reads it back: only turn parameters are consulted) -/

theorem extract_parameter_updates_congr (t : String) {s1 s2 : DialogueState}
    (hcur : s1.current_intent = s2.current_intent) (hsl : s1.slots = s2.slots) :
    (extract_parameter_updates s1 t).slots = (extract_parameter_updates s2 t).slots := by
  unfold extract_parameter_updates
  cases firstNumber t with
  | none => exact hsl
  | some n =>
    simp only
    by_cases h1 : altKeyword (lowerStr t) = true
    · rw [if_pos h1, if_pos h1]
      simp only
      rw [hsl]
    · rw [if_neg h1, if_neg h1]
      by_cases h2 : speedKeyword (lowerStr t) = true
      · rw [if_pos h2, if_pos h2]
        simp only
        rw [hsl]
      · rw [if_neg h2, if_neg h2]
        by_cases h3 : headingKeyword (lowerStr t) = true
        · rw [if_pos h3, if_pos h3]
          simp only
          rw [hsl]
        · rw [if_neg h3, if_neg h3]
          rw [hcur]
          cases hsc : s2.current_intent with
          | none => exact hsl
          | some ci =>
            simp only
            by_cases hca : (ci == "change_altitude") = true
            · rw [if_pos hca, if_pos hca]
              simp only
              rw [hsl]
            · rw [if_neg hca, if_neg hca]
              by_cases hcs : (ci == "change_speed") = true
              · rw [if_pos hcs, if_pos hcs]
                simp only
                rw [hsl]
              · rw [if_neg hcs, if_neg hcs]
                by_cases hcd : (ci == "change_direction") = true
                · rw [if_pos hcd, if_pos hcd]
                  simp only
                  rw [hsl]
                · rw [if_neg hcd, if_neg hcd]
                  exact hsl

theorem resolve_congr {s1 s2 : DialogueState} (t : String) (p : StrMap)
    (hcur : s1.current_intent = s2.current_intent) (hsl : s1.slots = s2.slots)
    (her : s1.entity_references = s2.entity_references)
    (hh : s1.conversation_history.map Turn.parameters =
      s2.conversation_history.map Turn.parameters) :
    resolve_coreferences s1 t p = resolve_coreferences s2 t p := by
  rw [resolve_eq_stages, resolve_eq_stages]
  have hst1 : resStage1 s1 t p = resStage1 s2 t p := by
    unfold resStage1
    rw [hcur, hsl]
  have hst2 : ∀ r : StrMap, resStage2 s1 t r = resStage2 s2 t r := by
    intro r
    unfold resStage2
    cases ho : ordinalSearch t with
    | none => rfl
    | some o =>
      simp only
      split
      · cases hc1 : s1.conversation_history with
        | nil =>
          cases hc2 : s2.conversation_history with
          | nil => rfl
          | cons b bs =>
            rw [hc1, hc2] at hh
            simp at hh
        | cons a as =>
          cases hc2 : s2.conversation_history with
          | nil =>
            rw [hc1, hc2] at hh
            simp at hh
          | cons b bs =>
            rw [hc1, hc2] at hh
            simp only [List.map_cons, List.cons.injEq] at hh
            simp only
            rw [hh.1]
      · rfl
  rw [hst1, hst2, her]

theorem histStep_la (st : DialogueState) (cI : Option String) (p : StrMap) (t : String) :
    (histStep st cI p t).last_action = st.last_action := rfl

theorem finish_turn_pending (st : DialogueState) (i : String) (p : StrMap) (t : String) :
    (finish_turn st i p t).pending_slots =
      (requiredSlots ((if i == "" then st.current_intent else some i).getD "")).filter
        (fun slot =>
          (mget (mergeNonNull st.slots (resolve_coreferences (extract_entities st t i p) t p))
            slot).isNone) := by
  unfold finish_turn
  rw [update_pending_slots_pending]
  by_cases hi : (i == "") = true
  · rw [if_pos hi, if_pos hi]
    rfl
  · rw [if_neg hi, if_neg hi]
    rfl

theorem finish_turn_congr {s1 s2 : DialogueState} (i : String) (p : StrMap) (t : String)
    (hcur : s1.current_intent = s2.current_intent) (hsl : s1.slots = s2.slots)
    (her : s1.entity_references = s2.entity_references) (htc : s1.turn_count = s2.turn_count)
    (hla : s1.last_action = s2.last_action)
    (hh : s1.conversation_history.map Turn.parameters =
      s2.conversation_history.map Turn.parameters) :
    (finish_turn s1 i p t).current_intent = (finish_turn s2 i p t).current_intent ∧
    (finish_turn s1 i p t).slots = (finish_turn s2 i p t).slots ∧
    (finish_turn s1 i p t).pending_slots = (finish_turn s2 i p t).pending_slots ∧
    (finish_turn s1 i p t).entity_references = (finish_turn s2 i p t).entity_references ∧
    (finish_turn s1 i p t).last_action = (finish_turn s2 i p t).last_action ∧
    (finish_turn s1 i p t).turn_count = (finish_turn s2 i p t).turn_count ∧
    (finish_turn s1 i p t).conversation_history.map Turn.parameters =
      (finish_turn s2 i p t).conversation_history.map Turn.parameters := by
  have hres : resolve_coreferences (extract_entities s1 t i p) t p =
      resolve_coreferences (extract_entities s2 t i p) t p := by
    apply resolve_congr
    · rw [extract_entities_current, extract_entities_current, hcur]
    · rw [extract_entities_slots, extract_entities_slots, hsl]
    · rw [extract_entities_er, extract_entities_er, her, htc]
    · rw [extract_entities_hist, extract_entities_hist, hh]
  refine ⟨?_, ?_, ?_, ?_, ?_, ?_, ?_⟩
  · rw [finish_turn_current, finish_turn_current, hcur]
  · rw [finish_turn_slots, finish_turn_slots, hsl, hres]
  · rw [finish_turn_pending, finish_turn_pending, hcur, hsl, hres]
  · rw [finish_turn_er, finish_turn_er, her, htc]
  · rw [finish_turn_la, finish_turn_la, hla]
  · rw [finish_turn_tc, finish_turn_tc, htc]
  · rw [finish_turn_hist, finish_turn_hist, hh]

/-- The non-correction branch of `update_state`, with the intermediate
state named. -/
theorem update_state_nc_fields (st : DialogueState) (c : ParsedCommand) (t : String)
    (h : is_correction t = false) :
    ∃ u : DialogueState,
      u = update_intent_and_slots (histStep st c.intent (c.parameters.getD []) t)
            (lowerStr (c.intent.getD "")) (c.parameters.getD []) ∧
      update_state st c t =
        finish_turn u (lowerStr (c.intent.getD "")) (c.parameters.getD []) t := by
  refine ⟨_, rfl, ?_⟩
  unfold update_state
  rw [update_state_core_nc st c.intent _ t h]

/-- C8: `update_state` degrades gracefully on malformed parser output: a
missing `parameters` key behaves exactly like an empty mapping (identical
resulting state, hence no slot changes from the parse), a missing `intent`
key behaves like an empty-string intent on every state field except the
verbatim parser output recorded in the history entry (whose count still
matches), and on a correction turn with an existing truthy current intent
the missing intent is resolved by fallback to that intent (lowercased). -/
theorem C8_graceful (st : DialogueState) (i : Option String) (p : Option StrMap)
    (o : Option String) (t : String) :
    (update_state st ⟨i, none, o⟩ t = update_state st ⟨i, some [], o⟩ t) ∧
    ((update_state st ⟨none, p, o⟩ t).current_intent =
        (update_state st ⟨some "", p, o⟩ t).current_intent ∧
      (update_state st ⟨none, p, o⟩ t).slots = (update_state st ⟨some "", p, o⟩ t).slots ∧
      (update_state st ⟨none, p, o⟩ t).pending_slots =
        (update_state st ⟨some "", p, o⟩ t).pending_slots ∧
      (update_state st ⟨none, p, o⟩ t).entity_references =
        (update_state st ⟨some "", p, o⟩ t).entity_references ∧
      (update_state st ⟨none, p, o⟩ t).last_action =
        (update_state st ⟨some "", p, o⟩ t).last_action ∧
      (update_state st ⟨none, p, o⟩ t).turn_count =
        (update_state st ⟨some "", p, o⟩ t).turn_count ∧
      (update_state st ⟨none, p, o⟩ t).conversation_history.length =
        (update_state st ⟨some "", p, o⟩ t).conversation_history.length) ∧
    (is_correction t = true → optStrTruthy st.current_intent = true →
      (update_state st ⟨none, p, o⟩ t).current_intent =
        some (lowerStr (st.current_intent.getD ""))) := by
  refine ⟨rfl, ?_, ?_⟩
  · by_cases hc : is_correction t = true
    · obtain ⟨A1, B1, i11, i21, ha1, hi11, hb1, hi21, hu1⟩ :=
        update_state_corr_fields st ⟨none, p, o⟩ t hc
      obtain ⟨A2, B2, i12, i22, ha2, hi12, hb2, hi22, hu2⟩ :=
        update_state_corr_fields st ⟨some "", p, o⟩ t hc
      have hieq : i11 = i12 := by
        rw [hi11, hi12]
        rfl
      have hAcur : A1.current_intent = A2.current_intent := by
        rw [ha1, ha2]
        rfl
      have hAsl : A1.slots = A2.slots := by
        rw [ha1, ha2]
        rfl
      have hAer : A1.entity_references = A2.entity_references := by
        rw [ha1, ha2]
        rfl
      have hAtc : A1.turn_count = A2.turn_count := by
        rw [ha1, ha2]
        rfl
      have hAla : A1.last_action = A2.last_action := by
        rw [ha1, ha2]
        rfl
      have hAh : A1.conversation_history.map Turn.parameters =
          A2.conversation_history.map Turn.parameters := by
        rw [ha1, ha2]
        unfold histStep
        simp [List.map_append]
      have hBcur : B1.current_intent = B2.current_intent := by
        rw [hb1, hb2, handle_correction_current, handle_correction_current, hieq, hAcur]
      have hBsl : B1.slots = B2.slots := by
        rw [hb1, hb2, handle_correction_slots, handle_correction_slots,
          extract_parameter_updates_congr t hAcur hAsl]
      have hBer : B1.entity_references = B2.entity_references := by
        rw [hb1, hb2, handle_correction_er, handle_correction_er, hAer]
      have hBtc : B1.turn_count = B2.turn_count := by
        rw [hb1, hb2, handle_correction_tc, handle_correction_tc, hAtc]
      have hBla : B1.last_action = B2.last_action := by
        rw [hb1, hb2, handle_correction_la, handle_correction_la, hAla]
      have hBh : B1.conversation_history.map Turn.parameters =
          B2.conversation_history.map Turn.parameters := by
        rw [hb1, hb2, handle_correction_hist, handle_correction_hist, hAh]
      have hi2eq : i21 = i22 := by
        rw [hi21, hi22, hBcur, hieq]
      obtain ⟨f1, f2, f3, f4, f5, f6, f7⟩ :=
        finish_turn_congr i21 ((⟨none, p, o⟩ : ParsedCommand).parameters.getD []) t
          hBcur hBsl hBer hBtc hBla hBh
      refine ⟨?_, ?_, ?_, ?_, ?_, ?_, ?_⟩
      · rw [hu1, hu2, ← hi2eq]
        exact f1
      · rw [hu1, hu2, ← hi2eq]
        exact f2
      · rw [hu1, hu2, ← hi2eq]
        exact f3
      · rw [hu1, hu2, ← hi2eq]
        exact f4
      · rw [hu1, hu2, ← hi2eq]
        exact f5
      · rw [hu1, hu2, ← hi2eq]
        exact f6
      · rw [hu1, hu2, ← hi2eq, finish_turn_hist, finish_turn_hist]
        have hl := congrArg List.length hBh
        simpa using hl
    · have hc' : is_correction t = false := by simpa using hc
      obtain ⟨u1, hd1, hu1⟩ := update_state_nc_fields st ⟨none, p, o⟩ t hc'
      obtain ⟨u2, hd2, hu2⟩ := update_state_nc_fields st ⟨some "", p, o⟩ t hc'
      have hucur : u1.current_intent = u2.current_intent := by
        rw [hd1, hd2, update_intent_and_slots_current, update_intent_and_slots_current]
        rfl
      have husl : u1.slots = u2.slots := by
        rw [hd1, hd2, update_intent_and_slots_slots, update_intent_and_slots_slots]
        rfl
      have huer : u1.entity_references = u2.entity_references := by
        rw [hd1, hd2, update_intent_and_slots_er, update_intent_and_slots_er]
        rfl
      have hutc : u1.turn_count = u2.turn_count := by
        rw [hd1, hd2, update_intent_and_slots_tc, update_intent_and_slots_tc]
        rfl
      have hula : u1.last_action = u2.last_action := by
        rw [hd1, hd2, update_intent_and_slots_la, update_intent_and_slots_la]
        rfl
      have huh : u1.conversation_history.map Turn.parameters =
          u2.conversation_history.map Turn.parameters := by
        rw [hd1, hd2, update_intent_and_slots_hist, update_intent_and_slots_hist]
        unfold histStep
        simp [List.map_append]
      obtain ⟨f1, f2, f3, f4, f5, f6, f7⟩ :=
        finish_turn_congr (lowerStr ((⟨none, p, o⟩ : ParsedCommand).intent.getD ""))
          ((⟨none, p, o⟩ : ParsedCommand).parameters.getD []) t
          hucur husl huer hutc hula huh
      refine ⟨?_, ?_, ?_, ?_, ?_, ?_, ?_⟩
      · rw [hu1, hu2]
        exact f1
      · rw [hu1, hu2]
        exact f2
      · rw [hu1, hu2]
        exact f3
      · rw [hu1, hu2]
        exact f4
      · rw [hu1, hu2]
        exact f5
      · rw [hu1, hu2]
        exact f6
      · rw [hu1, hu2, finish_turn_hist, finish_turn_hist]
        have hl := congrArg List.length huh
        simpa using hl
  · intro hcorr htr
    obtain ⟨A, B, i1, i2, ha, hi1d, hb, hi2d, hu⟩ :=
      update_state_corr_fields st ⟨none, p, o⟩ t hcorr
    have hbase : lowerStr (st.current_intent.getD "") ≠ "" := by
      cases hsc : st.current_intent with
      | none =>
        rw [hsc] at htr
        simp [optStrTruthy] at htr
      | some s =>
        rw [hsc] at htr
        simp only [optStrTruthy, bne_iff_ne, ne_eq, decide_not, Bool.not_eq_true',
          decide_eq_false_iff_not] at htr
        intro hL
        simp only [Option.getD_some] at hL
        exact htr (lowerStr_eq_empty.mp hL)
    have hcnd : ((lowerStr ((⟨none, p, o⟩ : ParsedCommand).intent.getD "") == ""
        || lowerStr ((⟨none, p, o⟩ : ParsedCommand).intent.getD "") == "status")
        && optStrTruthy st.current_intent) = true := by
      simp only [Bool.and_eq_true, Bool.or_eq_true, beq_iff_eq]
      exact ⟨Or.inl rfl, htr⟩
    have hi1v : i1 = lowerStr (st.current_intent.getD "") := by
      rw [hi1d, if_pos hcnd]
    have hBcur : B.current_intent = some (lowerStr (st.current_intent.getD "")) := by
      rw [hb, handle_correction_current, hi1v, if_neg (by simp [hbase])]
    have hi2v : i2 = lowerStr (st.current_intent.getD "") := by
      rw [hi2d, hBcur, if_pos (by simp [optStrTruthy, hbase])]
      simp only [Option.getD_some]
      exact lowerStr_idem _
    rw [hu, finish_turn_current, hi2v, if_neg (by simp [hbase])]

/-- C8 witness: a missing intent on the correction "actually faster" falls
back to the existing current intent. -/
theorem C8_witness :
    (update_state ⟨some "change_speed", [], [], [], [], none, 0⟩ ⟨none, none, none⟩
        "actually faster").current_intent = some (lowerStr "change_speed") :=
  (C8_graceful ⟨some "change_speed", [], [], [], [], none, 0⟩ none none none
      "actually faster").2.2 (by decide) (by decide)

/-- C7 counterexample: two identical non-correction turns whose text names
a waypoint called `last_altitude` and contains a `that` trigger.  Each
call re-stamps `entity_references['last_altitude']` with a waypoint record
carrying the current turn number, and the `that` fill copies that record
into `slots['altitude_ft']` — so the slots differ after the second call. -/
theorem C7_counterexample :
    is_correction "fly to point last_altitude then hold that" = false ∧
    (update_state (update_state initState ⟨none, none, none⟩
        "fly to point last_altitude then hold that") ⟨none, none, none⟩
        "fly to point last_altitude then hold that").slots ≠
      (update_state initState ⟨none, none, none⟩
        "fly to point last_altitude then hold that").slots :=
  ⟨by decide, by decide⟩

theorem histStep_hist (st : DialogueState) (cI : Option String) (p : StrMap) (t : String) :
    (histStep st cI p t).conversation_history =
      st.conversation_history ++
        [{ turn := st.turn_count + 1, user_input := t, intent := cI, parameters := p }] := rfl

theorem lastRefStep_idem (old : Option Value) (pv : Option Value) :
    lastRefStep (lastRefStep old pv) pv = lastRefStep old pv := by
  cases pv with
  | none => rfl
  | some v =>
    unfold lastRefStep
    by_cases ht : v.truthy = true
    · simp [ht]
    · simp [ht]

/-- C7 (amended): repeated identical non-correction turns are idempotent on
`slots` — provided the raw text does not name a waypoint/point/location
whose captured name collides with the `last_altitude` / `last_speed` /
`last_heading` entity-reference keys (otherwise each call re-stamps the
reference with a turn-numbered record that a `that` fill can copy into
slots — see the counterexample), with parameter keys distinct as in every
Python dict. -/
theorem C7_idempotent_slots (st : DialogueState) (c : ParsedCommand) (t : String)
    (hcorr : is_correction t = false) (hwp : wpSafe t = true)
    (hnd : keysNodup (c.parameters.getD [])) :
    (update_state (update_state st c t) c t).slots = (update_state st c t).slots := by
  obtain ⟨u1, hd1, hu1⟩ := update_state_nc_fields st c t hcorr
  obtain ⟨u2, hd2, hu2⟩ := update_state_nc_fields (update_state st c t) c t hcorr
  have hu1slots : u1.slots = mergeNonNull st.slots (c.parameters.getD []) := by
    rw [hd1, update_intent_and_slots_slots, histStep_slots]
  have hu1cur : u1.current_intent =
      (if lowerStr (c.intent.getD "") == "" then st.current_intent
       else some (lowerStr (c.intent.getD ""))) := by
    rw [hd1, update_intent_and_slots_current, histStep_current]
  have hu1er : u1.entity_references = st.entity_references := by
    rw [hd1, update_intent_and_slots_er, histStep_er]
  have hu1tc : u1.turn_count = st.turn_count + 1 := by
    rw [hd1, update_intent_and_slots_tc, histStep_tc]
  have hu1h : u1.conversation_history = st.conversation_history ++
      [{ turn := st.turn_count + 1, user_input := t, intent := c.intent,
         parameters := c.parameters.getD [] }] := by
    rw [hd1, update_intent_and_slots_hist, histStep_hist]
  have hst1slots : (update_state st c t).slots =
      mergeNonNull u1.slots
        (resolve_coreferences
          (extract_entities u1 t (lowerStr (c.intent.getD "")) (c.parameters.getD []))
          t (c.parameters.getD [])) := by
    rw [hu1, finish_turn_slots]
  have hst1cur : (update_state st c t).current_intent = u1.current_intent := by
    rw [hu1, finish_turn_current]
    by_cases hi0 : (lowerStr (c.intent.getD "") == "") = true
    · rw [if_pos hi0]
    · rw [if_neg hi0, hu1cur, if_neg hi0]
  have hu2slots0 : u2.slots = mergeNonNull (update_state st c t).slots (c.parameters.getD []) := by
    rw [hd2, update_intent_and_slots_slots, histStep_slots]
  have hu2cur : u2.current_intent = u1.current_intent := by
    rw [hd2, update_intent_and_slots_current, histStep_current, hst1cur, hu1cur]
    by_cases hi0 : (lowerStr (c.intent.getD "") == "") = true <;> simp [hi0]
  have hu2er : u2.entity_references =
      erUpdate st.entity_references t (c.parameters.getD []) (st.turn_count + 1) := by
    rw [hd2, update_intent_and_slots_er, histStep_er]
    exact update_state_er st c t
  have hu2tc : u2.turn_count = (update_state st c t).turn_count + 1 := by
    rw [hd2, update_intent_and_slots_tc, histStep_tc]
  have hu2h : u2.conversation_history = (update_state st c t).conversation_history ++
      [{ turn := (update_state st c t).turn_count + 1, user_input := t, intent := c.intent,
         parameters := c.parameters.getD [] }] := by
    rw [hd2, update_intent_and_slots_hist, histStep_hist]
  have hF1 : ∀ (k : String) (v : Value), mget (c.parameters.getD []) k = some v →
      lookupA (update_state st c t).slots k = some (some v) :=
    fun k v hv => parse_value_lands st c t k v hv hnd
  have hF2 : u2.slots = (update_state st c t).slots := by
    rw [hu2slots0]
    apply mergeNonNull_self
    intro kv hm v hv
    have hl : lookupA (c.parameters.getD []) kv.1 = some kv.2 := lookupA_eq_of_mem hnd hm
    rw [hv] at hl
    exact hF1 kv.1 v (by simp [mget, hl])
  have hcurm : (extract_entities u2 t (lowerStr (c.intent.getD ""))
        (c.parameters.getD [])).current_intent =
      (extract_entities u1 t (lowerStr (c.intent.getD ""))
        (c.parameters.getD [])).current_intent := by
    rw [extract_entities_current, extract_entities_current, hu2cur]
  have hm1er : (extract_entities u1 t (lowerStr (c.intent.getD ""))
        (c.parameters.getD [])).entity_references =
      erUpdate st.entity_references t (c.parameters.getD []) (st.turn_count + 1) := by
    rw [extract_entities_er, hu1er, hu1tc]
  have hm2er : (extract_entities u2 t (lowerStr (c.intent.getD ""))
        (c.parameters.getD [])).entity_references =
      erUpdate (erUpdate st.entity_references t (c.parameters.getD []) (st.turn_count + 1))
        t (c.parameters.getD []) ((update_state st c t).turn_count + 1) := by
    rw [extract_entities_er, hu2er, hu2tc]
  have hthat : ∀ k : String,
      thatMask (extract_entities u2 t (lowerStr (c.intent.getD "")) (c.parameters.getD [])) t k =
      thatMask (extract_entities u1 t (lowerStr (c.intent.getD "")) (c.parameters.getD [])) t k := by
    intro k
    unfold thatMask
    by_cases hth : thatTrigger (lowerStr t) = true
    · rw [if_pos hth, if_pos hth]
      obtain ⟨e1a, e1s, e1h⟩ := erUpdate_lookup_last st.entity_references t
        (c.parameters.getD []) (st.turn_count + 1) hwp
      obtain ⟨e2a, e2s, e2h⟩ := erUpdate_lookup_last
        (erUpdate st.entity_references t (c.parameters.getD []) (st.turn_count + 1)) t
        (c.parameters.getD []) ((update_state st c t).turn_count + 1) hwp
      by_cases h1 : k = "altitude_ft"
      · rw [if_pos h1, if_pos h1, hm2er, hm1er, e2a, e1a, lastRefStep_idem]
      · rw [if_neg h1, if_neg h1]
        by_cases h2 : k = "speed_value"
        · rw [if_pos h2, if_pos h2, hm2er, hm1er, e2s, e1s, lastRefStep_idem]
        · rw [if_neg h2, if_neg h2]
          by_cases h3 : k = "heading_deg"
          · rw [if_pos h3, if_pos h3, hm2er, hm1er, e2h, e1h, lastRefStep_idem]
          · rw [if_neg h3, if_neg h3]
    · rw [if_neg hth, if_neg hth]
  have hord : ∀ k : String,
      ordMask (extract_entities u2 t (lowerStr (c.intent.getD "")) (c.parameters.getD [])) t k =
      ordMask (extract_entities u1 t (lowerStr (c.intent.getD "")) (c.parameters.getD [])) t k := by
    intro k
    unfold ordMask
    cases ho : ordinalSearch t with
    | none => rfl
    | some o =>
      simp only
      split
      · have hh1 : (extract_entities u1 t (lowerStr (c.intent.getD ""))
            (c.parameters.getD [])).conversation_history =
            st.conversation_history ++
              [{ turn := st.turn_count + 1, user_input := t, intent := c.intent,
                 parameters := c.parameters.getD [] }] := by
          rw [extract_entities_hist, hu1h]
        have hh2 : (extract_entities u2 t (lowerStr (c.intent.getD ""))
            (c.parameters.getD [])).conversation_history =
            (st.conversation_history ++
              [{ turn := st.turn_count + 1, user_input := t, intent := c.intent,
                 parameters := c.parameters.getD [] }]) ++
              [{ turn := (update_state st c t).turn_count + 1, user_input := t,
                 intent := c.intent, parameters := c.parameters.getD [] }] := by
          rw [extract_entities_hist, hu2h, update_state_hist]
        rw [hh1, hh2]
        cases st.conversation_history with
        | nil => simp
        | cons a as => simp
      · rfl
  have hndr3 : keysNodup (resolve_coreferences
      (extract_entities u1 t (lowerStr (c.intent.getD "")) (c.parameters.getD [])) t
      (c.parameters.getD [])) := keysNodup_resolve hnd _ t
  have hnds3 : keysNodup (resolve_coreferences
      (extract_entities u2 t (lowerStr (c.intent.getD "")) (c.parameters.getD [])) t
      (c.parameters.getD [])) := keysNodup_resolve hnd _ t
  have hM1 : ∀ k : String, lookupA (update_state st c t).slots k =
      (match mget (resolve_coreferences
          (extract_entities u1 t (lowerStr (c.intent.getD "")) (c.parameters.getD [])) t
          (c.parameters.getD [])) k with
       | some u => some (some u)
       | none => lookupA u1.slots k) := by
    intro k
    rw [hst1slots]
    exact mergeNonNull_lookupA _ k hndr3
  have hm2sl : (extract_entities u2 t (lowerStr (c.intent.getD ""))
      (c.parameters.getD [])).slots = (update_state st c t).slots := by
    rw [extract_entities_slots, hF2]
  have hm1sl : (extract_entities u1 t (lowerStr (c.intent.getD ""))
      (c.parameters.getD [])).slots = u1.slots := extract_entities_slots u1 t _ _
  have hG : ∀ (k : String) (v : Value),
      mget (resolve_coreferences
        (extract_entities u2 t (lowerStr (c.intent.getD "")) (c.parameters.getD [])) t
        (c.parameters.getD [])) k = some v →
      lookupA (update_state st c t).slots k = some (some v) := by
    intro k v hv
    cases hpk : mget (c.parameters.getD []) k with
    | some u =>
      have hs3 := resolve_preserves_some
        (extract_entities u2 t (lowerStr (c.intent.getD "")) (c.parameters.getD [])) t
        (c.parameters.getD []) hpk
      rw [hs3] at hv
      injection hv with hv
      subst hv
      have hr3 := resolve_preserves_some
        (extract_entities u1 t (lowerStr (c.intent.getD "")) (c.parameters.getD [])) t
        (c.parameters.getD []) hpk
      rw [hM1 k, hr3]
    | none =>
      have e1 : mget (resolve_coreferences
          (extract_entities u1 t (lowerStr (c.intent.getD "")) (c.parameters.getD [])) t
          (c.parameters.getD [])) k =
          oAlt (oAlt
            (itMask (extract_entities u1 t (lowerStr (c.intent.getD ""))
              (c.parameters.getD [])) t (c.parameters.getD []) k)
            (ordMask (extract_entities u1 t (lowerStr (c.intent.getD ""))
              (c.parameters.getD [])) t k))
            (thatMask (extract_entities u1 t (lowerStr (c.intent.getD ""))
              (c.parameters.getD [])) t k) := by
        rw [resolve_mget, hpk, oAlt_none]
      have e2 : mget (resolve_coreferences
          (extract_entities u2 t (lowerStr (c.intent.getD "")) (c.parameters.getD [])) t
          (c.parameters.getD [])) k =
          oAlt (oAlt
            (itMask (extract_entities u2 t (lowerStr (c.intent.getD ""))
              (c.parameters.getD [])) t (c.parameters.getD []) k)
            (ordMask (extract_entities u1 t (lowerStr (c.intent.getD ""))
              (c.parameters.getD [])) t k))
            (thatMask (extract_entities u1 t (lowerStr (c.intent.getD ""))
              (c.parameters.getD [])) t k) := by
        rw [resolve_mget, hpk, oAlt_none, hord k, hthat k]
      have hcnd : (itTrigger (lowerStr t) &&
          (optStrTruthy (extract_entities u2 t (lowerStr (c.intent.getD ""))
            (c.parameters.getD [])).current_intent && !anyNonNull (c.parameters.getD []))) =
          (itTrigger (lowerStr t) &&
          (optStrTruthy (extract_entities u1 t (lowerStr (c.intent.getD ""))
            (c.parameters.getD [])).current_intent && !anyNonNull (c.parameters.getD []))) := by
        rw [hcurm]
      cases hr3 : mget (resolve_coreferences
          (extract_entities u1 t (lowerStr (c.intent.getD "")) (c.parameters.getD [])) t
          (c.parameters.getD [])) k with
      | some u =>
        have hA2 : lookupA (update_state st c t).slots k = some (some u) := by
          rw [hM1 k, hr3]
        by_cases hc1 : (itTrigger (lowerStr t) &&
            (optStrTruthy (extract_entities u1 t (lowerStr (c.intent.getD ""))
              (c.parameters.getD [])).current_intent &&
              !anyNonNull (c.parameters.getD []))) = true
        · by_cases hk3 : isFillKey k
          · have hB2 : itMask (extract_entities u2 t (lowerStr (c.intent.getD ""))
                (c.parameters.getD [])) t (c.parameters.getD []) k = some u := by
              unfold itMask
              rw [hcnd, if_pos hc1, if_pos hk3, hm2sl, hA2]
              rfl
            rw [e2, hB2, oAlt_some, oAlt_some] at hv
            injection hv with hv
            subst hv
            exact hA2
          · have hB1 : itMask (extract_entities u1 t (lowerStr (c.intent.getD ""))
                (c.parameters.getD [])) t (c.parameters.getD []) k = none := by
              unfold itMask
              rw [if_pos hc1, if_neg hk3]
            have hB2 : itMask (extract_entities u2 t (lowerStr (c.intent.getD ""))
                (c.parameters.getD [])) t (c.parameters.getD []) k = none := by
              unfold itMask
              rw [hcnd, if_pos hc1, if_neg hk3]
            rw [e1, hB1, oAlt_none] at hr3
            rw [e2, hB2, oAlt_none, hr3] at hv
            injection hv with hv
            subst hv
            exact hA2
        · have hB1 : itMask (extract_entities u1 t (lowerStr (c.intent.getD ""))
              (c.parameters.getD [])) t (c.parameters.getD []) k = none := by
            unfold itMask
            rw [if_neg hc1]
          have hB2 : itMask (extract_entities u2 t (lowerStr (c.intent.getD ""))
              (c.parameters.getD [])) t (c.parameters.getD []) k = none := by
            unfold itMask
            rw [hcnd, if_neg hc1]
          rw [e1, hB1, oAlt_none] at hr3
          rw [e2, hB2, oAlt_none, hr3] at hv
          injection hv with hv
          subst hv
          exact hA2
      | none =>
        have hmask := hr3
        rw [e1] at hmask
        obtain ⟨h12, hT⟩ := oAlt_eq_none.mp hmask
        obtain ⟨hB1, hO⟩ := oAlt_eq_none.mp h12
        have hA2A1 : lookupA (update_state st c t).slots k = lookupA u1.slots k := by
          rw [hM1 k, hr3]
        have hB2 : itMask (extract_entities u2 t (lowerStr (c.intent.getD ""))
            (c.parameters.getD [])) t (c.parameters.getD []) k = none := by
          unfold itMask
          rw [hcnd]
          by_cases hc1 : (itTrigger (lowerStr t) &&
              (optStrTruthy (extract_entities u1 t (lowerStr (c.intent.getD ""))
                (c.parameters.getD [])).current_intent &&
                !anyNonNull (c.parameters.getD []))) = true
          · rw [if_pos hc1]
            by_cases hk3 : isFillKey k
            · rw [if_pos hk3, hm2sl, hA2A1]
              unfold itMask at hB1
              rw [if_pos hc1, if_pos hk3, hm1sl] at hB1
              exact hB1
            · rw [if_neg hk3]
          · rw [if_neg hc1]
        rw [e2, hB2, oAlt_none, hO, oAlt_none, hT] at hv
        cases hv
  have hfinal : mergeNonNull (update_state st c t).slots
      (resolve_coreferences
        (extract_entities u2 t (lowerStr (c.intent.getD "")) (c.parameters.getD [])) t
        (c.parameters.getD [])) = (update_state st c t).slots := by
    apply mergeNonNull_self
    intro kv hm v hv
    have hl : lookupA (resolve_coreferences
        (extract_entities u2 t (lowerStr (c.intent.getD "")) (c.parameters.getD [])) t
        (c.parameters.getD [])) kv.1 = some kv.2 := lookupA_eq_of_mem hnds3 hm
    rw [hv] at hl
    exact hG kv.1 v (by simp [mget, hl])
  rw [hu2, finish_turn_slots, hF2, hfinal]

/-- C7 witness: a plain repeated "climb to 5000 feet" turn leaves slots
unchanged on the second call. -/
theorem C7_witness :
    (update_state (update_state initState
        ⟨some "change_altitude", some [("altitude_ft", some (Value.int 5000))], none⟩
        "climb to 5000 feet")
        ⟨some "change_altitude", some [("altitude_ft", some (Value.int 5000))], none⟩
        "climb to 5000 feet").slots =
      (update_state initState
        ⟨some "change_altitude", some [("altitude_ft", some (Value.int 5000))], none⟩
        "climb to 5000 feet").slots :=
  C7_idempotent_slots initState
    ⟨some "change_altitude", some [("altitude_ft", some (Value.int 5000))], none⟩
    "climb to 5000 feet" (by decide) (by decide) (by decide)

end FGNLP
